import Mathlib

/-!
Verification development for the jira-issue-writer prompt-completion pipeline.

The definitions below are shallow embeddings of the TypeScript sources:
  * `server/utils/json-sanitizer.ts` (removeJsonCodeFences, escapeControlCharacters,
    sanitizeJsonResponse),
  * `shared/types/issue-generation.ts` (parseIssueGenerationResult),
  * `shared/constants/issue-types.ts` (normalizeToken, normalizeIssueType),
  * `server/api/prompt.ts` (payload extraction, retry strategy, clarification loop).

Strings are modelled as Lean `String`/`List Char` (code points; the sources
iterate with for..of or index over ASCII data, where the two coincide for the
characters involved).  JavaScript regular-expression replaces are modelled as
the equivalent left-to-right scan machines.
-/

namespace JIW

/-- The backtick character, written via its code point. -/
def tick : Char := Char.ofNat 96

/-- JavaScript whitespace (the set matched by the regex class \s and removed by
String.prototype.trim): tab, LF, VT, FF, CR, space, NBSP, and the Unicode
space separators and BOM. -/
def isJsWs (c : Char) : Bool :=
  c == '\t' || c == '\n' || c == Char.ofNat 0x0b || c == Char.ofNat 0x0c ||
  c == '\r' || c == ' ' || c == Char.ofNat 0xa0 || c == Char.ofNat 0x1680 ||
  (Char.ofNat 0x2000 ≤ c && c ≤ Char.ofNat 0x200a) ||
  c == Char.ofNat 0x2028 || c == Char.ofNat 0x2029 || c == Char.ofNat 0x202f ||
  c == Char.ofNat 0x205f || c == Char.ofNat 0x3000 || c == Char.ofNat 0xfeff

/-- A word character, the regex class \w: [A-Za-z0-9_]. -/
def isWordChar (c : Char) : Bool :=
  ('a' ≤ c && c ≤ 'z') || ('A' ≤ c && c ≤ 'Z') || ('0' ≤ c && c ≤ '9') || c == '_'

/-- Drop trailing JS whitespace (the back half of String.prototype.trim). -/
def dropTrailWs : List Char → List Char
  | [] => []
  | c :: r =>
    let r' := dropTrailWs r
    if r' = [] && isJsWs c then [] else c :: r'

/-- String.prototype.trim on a character list: drop leading and trailing JS
whitespace. -/
def jsTrimList (l : List Char) : List Char :=
  dropTrailWs (l.dropWhile isJsWs)

/-- String.prototype.trim. -/
def jsTrim (s : String) : String :=
  String.mk (jsTrimList s.data)

/-! ## json-sanitizer.ts: removeJsonCodeFences

`removeJsonCodeFences` is
`jsonString.replace(/[3 backticks]\w*\s*[slash]g, '').replace(/[3 backticks]/g, '').trim()`.
Each global replace-with-empty is a left-to-right scan that, at each position,
removes the leftmost-longest match or copies one character.  `fence1Go` is the
scan of the first regex (three backticks, then greedily \w*, then greedily
\s*); `fence2Go` the scan of the second (exactly three backticks). -/

/-- Scanner mode for the first fence regex: `normal` (searching for a match),
`skipWord` (inside the \w* part of a match), `skipWs` (inside the \s* part). -/
inductive FenceMode | normal | skipWord | skipWs
deriving DecidableEq

/-- The scan of `.replace(/[3 backticks]\w*\s*[slash]g, '')`. -/
def fence1Go : FenceMode → List Char → List Char
  | _, [] => []
  | m, c0 :: c1 :: c2 :: r =>
    if m = .skipWord && isWordChar c0 then fence1Go .skipWord (c1 :: c2 :: r)
    else if (m = .skipWord || m = .skipWs) && isJsWs c0 then fence1Go .skipWs (c1 :: c2 :: r)
    else if c0 == tick && c1 == tick && c2 == tick then fence1Go .skipWord r
    else c0 :: fence1Go .normal (c1 :: c2 :: r)
  | m, c :: r =>
    if m = .skipWord && isWordChar c then fence1Go .skipWord r
    else if (m = .skipWord || m = .skipWs) && isJsWs c then fence1Go .skipWs r
    else c :: fence1Go .normal r

/-- The scan of `.replace(/[3 backticks]/g, '')`. -/
def fence2Go : List Char → List Char
  | c0 :: c1 :: c2 :: r =>
    if c0 == tick && c1 == tick && c2 == tick then fence2Go r
    else c0 :: fence2Go (c1 :: c2 :: r)
  | c :: r => c :: fence2Go r
  | [] => []

/-- `removeJsonCodeFences` from server/utils/json-sanitizer.ts: strip the two
fence regexes, then trim. -/
def removeJsonCodeFences (s : String) : String :=
  String.mk (jsTrimList (fence2Go (fence1Go .normal s.data)))

/-! ## json-sanitizer.ts: escapeControlCharacters -/

/-- One lowercase hexadecimal digit (Number.prototype.toString(16)). -/
def hexDigit (n : Nat) : Char :=
  Char.ofNat (if n < 10 then 48 + n else 87 + n)

/-- Four lowercase hex digits, as produced by
`charCodeAt(0).toString(16).padStart(4, '0')` for code points below 0x10000. -/
def hex4 (n : Nat) : List Char :=
  [hexDigit (n / 4096 % 16), hexDigit (n / 256 % 16), hexDigit (n / 16 % 16), hexDigit (n % 16)]

/-- `shouldEscapeCharacter` from json-sanitizer.ts: newline, carriage return,
tab, or any character below code point 0x20. -/
def shouldEscapeCharacter (c : Char) : Bool :=
  c == '\n' || c == '\r' || c == '\t' || decide (c.toNat < 32)

/-- `escapeCharacter` from json-sanitizer.ts, producing the replacement
characters of one input character. -/
def escapeCharacter (c : Char) : List Char :=
  if c == '\n' then ['\\', 'n']
  else if c == '\r' then ['\\', 'r']
  else if c == '\t' then ['\\', 't']
  else if c.toNat < 32 then '\\' :: 'u' :: hex4 c.toNat
  else [c]

/-- The character loop of `escapeControlCharacters`: the two Booleans are the
`inString` and `escapeNext` flags of the source. -/
def escGo : Bool → Bool → List Char → List Char
  | _, _, [] => []
  | false, e, c :: r => c :: escGo (c == '"') e r
  | true, true, c :: r => c :: escGo true false r
  | true, false, c :: r =>
    if c == '\\' then c :: escGo true true r
    else if c == '"' then c :: escGo false false r
    else if shouldEscapeCharacter c then escapeCharacter c ++ escGo true false r
    else c :: escGo true false r

/-- `escapeControlCharacters` from json-sanitizer.ts. -/
def escapeControlCharacters (s : String) : String :=
  String.mk (escGo false false s.data)

/-- `sanitizeJsonResponse` from json-sanitizer.ts:
`escapeControlCharacters(removeJsonCodeFences(jsonString))`. -/
def sanitizeJsonResponse (s : String) : String :=
  escapeControlCharacters (removeJsonCodeFences s)

/-! ## Sanitizer idempotence: auxiliary predicates -/

/-- Does the list start with a backtick? -/
def lead1 : List Char → Bool
  | c :: _ => c == tick
  | [] => false

/-- Does the list start with two backticks? -/
def lead2 : List Char → Bool
  | c0 :: c1 :: _ => c0 == tick && c1 == tick
  | _ => false

/-- Does the list contain three consecutive backticks anywhere? -/
def hasTickTriple : List Char → Bool
  | c0 :: c1 :: c2 :: r =>
    (c0 == tick && c1 == tick && c2 == tick) || hasTickTriple (c1 :: c2 :: r)
  | _ => false

lemma lead2_cons (c : Char) (r : List Char) :
    lead2 (c :: r) = (c == tick && lead1 r) := by
  cases r <;> simp [lead2, lead1]

lemma hasTickTriple_cons (c : Char) (r : List Char) :
    hasTickTriple (c :: r) = ((c == tick && lead2 r) || hasTickTriple r) := by
  match r with
  | [] => simp [hasTickTriple, lead2]
  | [c1] => simp [hasTickTriple, lead2]
  | c1 :: c2 :: r' => simp [hasTickTriple, lead2, Bool.and_assoc]

lemma hasTickTriple_tail {c : Char} {r : List Char}
    (h : hasTickTriple (c :: r) = false) : hasTickTriple r = false := by
  rw [hasTickTriple_cons] at h
  exact (Bool.or_eq_false_iff.mp h).2

lemma hasTickTriple_cons_of_ne {c : Char} (hc : (c == tick) = false) (r : List Char) :
    hasTickTriple (c :: r) = hasTickTriple r := by
  rw [hasTickTriple_cons, hc]
  simp

/-! ## Fence removal leaves no backtick triple -/

lemma fence2Go_lead1 : ∀ l : List Char, lead1 (fence2Go l) = true → lead1 l = true := by
  intro l
  induction l using fence2Go.induct with
  | case1 c0 c1 c2 r h ih =>
    intro _
    simp only [Bool.and_eq_true] at h
    simp [lead1, h.1]
  | case2 c0 c1 c2 r h ih =>
    intro hh
    simp only [fence2Go, if_neg h] at hh
    simpa [lead1] using hh
  | case3 c r hsh ih =>
    intro hh
    cases r with
    | nil => simpa [fence2Go, lead1] using hh
    | cons x xs =>
      cases xs with
      | nil => simpa [fence2Go, lead1] using hh
      | cons y ys => exact absurd rfl (hsh x y ys)
  | case4 => intro hh; simp [fence2Go, lead1] at hh

lemma fence2Go_lead2 : ∀ l : List Char, lead2 (fence2Go l) = true → lead2 l = true := by
  intro l
  induction l using fence2Go.induct with
  | case1 c0 c1 c2 r h ih =>
    intro _
    simp only [Bool.and_eq_true] at h
    simp [lead2, h.1.1, h.1.2]
  | case2 c0 c1 c2 r h ih =>
    intro hh
    simp only [fence2Go, if_neg h] at hh
    rw [lead2_cons] at hh
    simp only [Bool.and_eq_true] at hh
    have := fence2Go_lead1 _ hh.2
    rw [lead2_cons, hh.1]
    simpa using this
  | case3 c r hsh ih =>
    intro hh
    cases r with
    | nil => simp [fence2Go, lead2] at hh
    | cons x xs =>
      cases xs with
      | nil => simpa [fence2Go, lead2] using hh
      | cons y ys => exact absurd rfl (hsh x y ys)
  | case4 => intro hh; simp [fence2Go, lead2] at hh

/-- The second fence scan never leaves three consecutive backticks. -/
lemma fence2Go_no_triple : ∀ l : List Char, hasTickTriple (fence2Go l) = false := by
  intro l
  induction l using fence2Go.induct with
  | case1 c0 c1 c2 r h ih => simpa [fence2Go, h] using ih
  | case2 c0 c1 c2 r h ih =>
    rw [fence2Go, if_neg h, hasTickTriple_cons, ih]
    simp only [Bool.or_false]
    by_cases hc0 : (c0 == tick) = true
    · by_cases hl2 : lead2 (fence2Go (c1 :: c2 :: r)) = true
      · exfalso
        have h12 := fence2Go_lead2 _ hl2
        rw [lead2_cons] at h12
        simp only [Bool.and_eq_true] at h12
        have hc2 : (c2 == tick) = true := by
          cases r <;> simpa [lead1] using h12.2
        exact h (by simp [hc0, h12.1, hc2])
      · rw [Bool.not_eq_true] at hl2
        simp [hl2]
    · rw [Bool.not_eq_true] at hc0
      simp [hc0]
  | case3 c r hsh ih =>
    cases r with
    | nil => simp [fence2Go, hasTickTriple]
    | cons x xs =>
      cases xs with
      | nil => simp [fence2Go, hasTickTriple]
      | cons y ys => exact absurd rfl (hsh x y ys)
  | case4 => simp [fence2Go, hasTickTriple]

/-- On a string without a backtick triple, the first fence scan is the identity. -/
lemma fence1Go_id_of_no_triple :
    ∀ l : List Char, hasTickTriple l = false → fence1Go .normal l = l := by
  intro l
  induction l using fence2Go.induct with
  | case1 c0 c1 c2 r h ih =>
    intro hT
    rw [hasTickTriple_cons] at hT
    rcases Bool.or_eq_false_iff.mp hT with ⟨hA, _⟩
    exfalso
    simp only [Bool.and_eq_true] at h
    rw [lead2_cons] at hA
    simp [h.1.1, h.1.2, lead1, h.2] at hA
  | case2 c0 c1 c2 r h ih =>
    intro hT
    have hTt : hasTickTriple (c1 :: c2 :: r) = false := hasTickTriple_tail hT
    show fence1Go .normal (c0 :: c1 :: c2 :: r) = _
    rw [fence1Go]
    simp only [show (FenceMode.normal = FenceMode.skipWord) = False by simp,
      show (FenceMode.normal = FenceMode.skipWs) = False by simp]
    simp only [decide_False, Bool.false_and, Bool.false_or, if_neg h]
    simp [ih hTt]
  | case3 c r hsh ih =>
    intro hT
    cases r with
    | nil => simp [fence1Go]
    | cons x xs =>
      cases xs with
      | nil =>
        show fence1Go .normal [c, x] = _
        simp [fence1Go]
      | cons y ys => exact absurd rfl (hsh x y ys)
  | case4 => intro _; simp [fence1Go]

/-- On a string without a backtick triple, the second fence scan is the identity. -/
lemma fence2Go_id_of_no_triple :
    ∀ l : List Char, hasTickTriple l = false → fence2Go l = l := by
  intro l
  induction l using fence2Go.induct with
  | case1 c0 c1 c2 r h ih =>
    intro hT
    exfalso
    rw [hasTickTriple_cons] at hT
    rcases Bool.or_eq_false_iff.mp hT with ⟨hA, _⟩
    simp only [Bool.and_eq_true] at h
    rw [lead2_cons] at hA
    cases r <;> simp_all [lead1]
  | case2 c0 c1 c2 r h ih =>
    intro hT
    rw [fence2Go, if_neg h, ih (hasTickTriple_tail hT)]
  | case3 c r hsh ih =>
    intro hT
    cases r with
    | nil => simp [fence2Go]
    | cons x xs =>
      cases xs with
      | nil => simp [fence2Go]
      | cons y ys => exact absurd rfl (hsh x y ys)
  | case4 => intro _; rfl

/-! ## The escape machine: replay (idempotence) and preservation lemmas -/

/-- The final (inString, escapeNext) state of the escape loop after processing
a list of characters. -/
def escFin : Bool → Bool → List Char → Bool × Bool
  | s, e, [] => (s, e)
  | false, e, c :: r => escFin (c == '"') e r
  | true, true, _ :: r => escFin true false r
  | true, false, c :: r =>
    if c == '\\' then escFin true true r
    else if c == '"' then escFin false false r
    else escFin true false r

lemma hexDigit_plain : ∀ k < 16,
    ((hexDigit k == tick) = false ∧ (hexDigit k == '\\') = false ∧
     (hexDigit k == '"') = false ∧ shouldEscapeCharacter (hexDigit k) = false ∧
     isJsWs (hexDigit k) = false) := by decide

lemma mod16_lt (n : Nat) : n % 16 < 16 := Nat.mod_lt _ (by norm_num)

/-- A character that is not a backslash, not a quote and needs no escaping is
copied verbatim inside a string literal. -/
lemma escGo_plain {d : Char} (h1 : (d == '\\') = false) (h2 : (d == '"') = false)
    (h3 : shouldEscapeCharacter d = false) (Y : List Char) :
    escGo true false (d :: Y) = d :: escGo true false Y := by
  rw [escGo, if_neg (by simp [h1]), if_neg (by simp [h2]), if_neg (by simp [h3])]

/-- Replaying the replacement text of one escaped character through the loop
reproduces it and returns to the (inString, not-escaped) state. -/
lemma escGo_escapeChar {c : Char} (hesc : shouldEscapeCharacter c = true)
    (hb : (c == '\\') = false) (hq : (c == '"') = false) (X : List Char) :
    escGo true false (escapeCharacter c ++ X) = escapeCharacter c ++ escGo true false X := by
  by_cases hn : c = '\n'
  · subst hn; simp [escapeCharacter, escGo]
  · by_cases hr : c = '\r'
    · subst hr; simp [escapeCharacter, escGo]
    · by_cases ht : c = '\t'
      · subst ht; simp [escapeCharacter, escGo]
      · have h32 : c.toNat < 32 := by
          simp [shouldEscapeCharacter, hn, hr, ht] at hesc
          exact hesc
        rw [escapeCharacter, if_neg (by simp [hn]), if_neg (by simp [hr]),
          if_neg (by simp [ht]), if_pos h32]
        show escGo true false ('\\' :: 'u' :: (hex4 c.toNat ++ X)) = _
        rw [escGo]
        rw [show escGo true true ('u' :: (hex4 c.toNat ++ X)) =
          'u' :: escGo true false (hex4 c.toNat ++ X) from rfl]
        have step : ∀ k, k < 16 → ∀ Y, escGo true false (hexDigit k :: Y) =
            hexDigit k :: escGo true false Y := by
          intro k hk Y
          obtain ⟨_, d1, d2, d3, _⟩ := hexDigit_plain k hk
          exact escGo_plain d1 d2 d3 Y
        show '\\' :: 'u' :: escGo true false
            (hexDigit (c.toNat / 4096 % 16) :: hexDigit (c.toNat / 256 % 16) ::
             hexDigit (c.toNat / 16 % 16) :: hexDigit (c.toNat % 16) :: X) = _
        rw [step _ (mod16_lt _), step _ (mod16_lt _), step _ (mod16_lt _), step _ (mod16_lt _)]
        rfl

/-- Replay lemma: feeding the loop output (followed by anything) back through
the loop from the same well-formed start state copies the output verbatim and
continues from the corresponding final state. -/
lemma escGo_replay : ∀ (l : List Char) (s e : Bool), (s = false → e = false) → ∀ t,
    escGo s e (escGo s e l ++ t) =
      escGo s e l ++ escGo (escFin s e l).1 (escFin s e l).2 t := by
  intro l
  induction l with
  | nil => intro s e _ t; simp [escGo, escFin]
  | cons c r ih =>
    intro s e hok t
    cases s with
    | false =>
      have he : e = false := hok rfl
      subst he
      show escGo false false ((c :: escGo (c == '"') false r) ++ t) = _
      rw [List.cons_append, escGo, escFin]
      rw [ih (c == '"') false (fun _ => rfl) t]
      rfl
    | true =>
      cases e with
      | true =>
        show escGo true true ((c :: escGo true false r) ++ t) = _
        rw [List.cons_append, escGo, escFin]
        rw [ih true false (by simp) t]
        rfl
      | false =>
        by_cases hb : (c == '\\') = true
        · rw [escGo, if_pos hb, escFin, if_pos hb, List.cons_append, escGo, if_pos hb]
          rw [ih true true (by simp) t, List.cons_append]
        · by_cases hq : (c == '"') = true
          · rw [escGo, if_neg (by simp_all), if_pos hq, escFin, if_neg (by simp_all),
              if_pos hq, List.cons_append, escGo, if_neg (by simp_all), if_pos hq]
            rw [ih false false (fun _ => rfl) t, List.cons_append]
          · by_cases hesc : shouldEscapeCharacter c = true
            · rw [escGo, if_neg (by simp_all), if_neg (by simp_all), if_pos hesc,
                escFin, if_neg (by simp_all), if_neg (by simp_all)]
              rw [List.append_assoc]
              rw [escGo_escapeChar hesc (by simp_all) (by simp_all)]
              rw [ih true false (by simp) t]
              rw [List.append_assoc]
            · rw [escGo, if_neg (by simp_all), if_neg (by simp_all), if_neg (by simp_all),
                escFin, if_neg (by simp_all), if_neg (by simp_all), List.cons_append,
                escGo, if_neg (by simp_all), if_neg (by simp_all), if_neg (by simp_all)]
              rw [ih true false (by simp) t, List.cons_append]

lemma escGo_nil (s e : Bool) : escGo s e [] = [] := by
  cases s <;> cases e <;> rfl

/-- Running the escape loop twice from the start state is the same as once. -/
lemma escGo_idem (l : List Char) :
    escGo false false (escGo false false l) = escGo false false l := by
  have := escGo_replay l false false (fun _ => rfl) []
  simpa [escGo_nil] using this

/-- Case-analysis view of one escape-loop step: the output is the image of the
head character followed by the output of the tail from the successor state. -/
lemma escGo_cons_view (s e : Bool) (c : Char) (r : List Char) :
    (s = false ∧ escGo s e (c :: r) = c :: escGo (c == '"') e r) ∨
    (s = true ∧ e = true ∧ escGo s e (c :: r) = c :: escGo true false r) ∨
    (s = true ∧ e = false ∧ (c == '\\') = true ∧
      escGo s e (c :: r) = c :: escGo true true r) ∨
    (s = true ∧ e = false ∧ (c == '\\') = false ∧ (c == '"') = true ∧
      escGo s e (c :: r) = c :: escGo false false r) ∨
    (s = true ∧ e = false ∧ (c == '\\') = false ∧ (c == '"') = false ∧
      shouldEscapeCharacter c = true ∧
      escGo s e (c :: r) = escapeCharacter c ++ escGo true false r) ∨
    (s = true ∧ e = false ∧ (c == '\\') = false ∧ (c == '"') = false ∧
      shouldEscapeCharacter c = false ∧
      escGo s e (c :: r) = c :: escGo true false r) := by
  cases s with
  | false => exact Or.inl ⟨rfl, rfl⟩
  | true =>
    cases e with
    | true => exact Or.inr (Or.inl ⟨rfl, rfl, rfl⟩)
    | false =>
      by_cases hb : (c == '\\') = true
      · exact Or.inr (Or.inr (Or.inl ⟨rfl, rfl, hb, by rw [escGo, if_pos hb]⟩))
      · by_cases hq : (c == '"') = true
        · refine Or.inr (Or.inr (Or.inr (Or.inl ⟨rfl, rfl, by simpa using hb, hq, ?_⟩)))
          rw [escGo, if_neg hb, if_pos hq]
        · by_cases hesc : shouldEscapeCharacter c = true
          · refine Or.inr (Or.inr (Or.inr (Or.inr (Or.inl
              ⟨rfl, rfl, by simpa using hb, by simpa using hq, hesc, ?_⟩))))
            rw [escGo, if_neg hb, if_neg hq, if_pos hesc]
          · refine Or.inr (Or.inr (Or.inr (Or.inr (Or.inr
              ⟨rfl, rfl, by simpa using hb, by simpa using hq, by simpa using hesc, ?_⟩))))
            rw [escGo, if_neg hb, if_neg hq, if_neg hesc]

/-- The escaped replacement of a character that needs escaping contains no
backtick, starts with a backslash, and ends in a non-whitespace character. -/
lemma escapeCharacter_of_esc {c : Char} (hesc : shouldEscapeCharacter c = true) :
    ∃ d x, escapeCharacter c = '\\' :: d :: x ∧ (d == tick) = false ∧
      (∀ y ∈ x, (y == tick) = false ∧ isJsWs y = false) ∧
      isJsWs d = false := by
  by_cases hn : c = '\n'
  · subst hn; exact ⟨'n', [], by simp [escapeCharacter], by decide, by simp, by decide⟩
  · by_cases hr : c = '\r'
    · subst hr; exact ⟨'r', [], by simp [escapeCharacter], by decide, by simp, by decide⟩
    · by_cases ht : c = '\t'
      · subst ht; exact ⟨'t', [], by simp [escapeCharacter], by decide, by decide, by decide⟩
      · have h32 : c.toNat < 32 := by
          simp [shouldEscapeCharacter, hn, hr, ht] at hesc
          exact hesc
        refine ⟨'u', hex4 c.toNat, ?_, by decide, ?_, by decide⟩
        · rw [escapeCharacter, if_neg (by simp [hn]), if_neg (by simp [hr]),
            if_neg (by simp [ht]), if_pos h32]
        · intro y hy
          have : ∃ k, k < 16 ∧ y = hexDigit k := by
            simp only [hex4, List.mem_cons, List.mem_singleton] at hy
            rcases hy with h | h | h | h
            · exact ⟨_, mod16_lt _, h⟩
            · exact ⟨_, mod16_lt _, h⟩
            · exact ⟨_, mod16_lt _, h⟩
            · exact ⟨_, mod16_lt _, by simpa using h⟩
          obtain ⟨k, hk, rfl⟩ := this
          obtain ⟨p1, _, _, _, p5⟩ := hexDigit_plain k hk
          exact ⟨p1, p5⟩

lemma escGo_ne_nil {l : List Char} (h : l ≠ []) (s e : Bool) : escGo s e l ≠ [] := by
  cases l with
  | nil => exact absurd rfl h
  | cons c r =>
    rcases escGo_cons_view s e c r with ⟨_, hv⟩ | ⟨_, _, hv⟩ | ⟨_, _, _, hv⟩ |
      ⟨_, _, _, _, hv⟩ | ⟨_, _, _, _, hesc, hv⟩ | ⟨_, _, _, _, _, hv⟩ <;>
      rw [hv]
    · simp
    · simp
    · simp
    · simp
    · obtain ⟨d, x, he, _, _, _⟩ := escapeCharacter_of_esc hesc
      simp [he]
    · simp

lemma escGo_lead1 : ∀ (l : List Char) (s e : Bool),
    lead1 (escGo s e l) = true → lead1 l = true := by
  intro l s e h
  cases l with
  | nil => rw [escGo_nil] at h; simp [lead1] at h
  | cons c r =>
    rcases escGo_cons_view s e c r with ⟨_, hv⟩ | ⟨_, _, hv⟩ | ⟨_, _, _, hv⟩ |
      ⟨_, _, _, _, hv⟩ | ⟨_, _, _, _, hesc, hv⟩ | ⟨_, _, _, _, _, hv⟩ <;>
      rw [hv] at h
    · simpa [lead1] using h
    · simpa [lead1] using h
    · simpa [lead1] using h
    · simpa [lead1] using h
    · obtain ⟨d, x, he, _, _, _⟩ := escapeCharacter_of_esc hesc
      rw [he] at h
      simp [lead1] at h
      exact absurd h (by decide)
    · simpa [lead1] using h

lemma escGo_lead2 : ∀ (l : List Char) (s e : Bool),
    lead2 (escGo s e l) = true → lead2 l = true := by
  intro l s e h
  cases l with
  | nil => rw [escGo_nil] at h; simp [lead2] at h
  | cons c r =>
    have step : ∀ (s' e' : Bool), lead2 (c :: escGo s' e' r) = true →
        lead2 (c :: r) = true := by
      intro s' e' hh
      rw [lead2_cons] at hh ⊢
      simp only [Bool.and_eq_true] at hh
      simp [hh.1, escGo_lead1 _ _ _ hh.2]
    rcases escGo_cons_view s e c r with ⟨_, hv⟩ | ⟨_, _, hv⟩ | ⟨_, _, _, hv⟩ |
      ⟨_, _, _, _, hv⟩ | ⟨_, _, _, _, hesc, hv⟩ | ⟨_, _, _, _, _, hv⟩ <;> rw [hv] at h
    · exact step _ _ h
    · exact step _ _ h
    · exact step _ _ h
    · exact step _ _ h
    · obtain ⟨d, x, he, _, _, _⟩ := escapeCharacter_of_esc hesc
      rw [he] at h
      simp [lead2] at h
      exact absurd h.1 (by decide)
    · exact step _ _ h

lemma hT_append_no_tick : ∀ (a b : List Char), (∀ y ∈ a, (y == tick) = false) →
    hasTickTriple (a ++ b) = hasTickTriple b := by
  intro a
  induction a with
  | nil => intro b _; rfl
  | cons y a' ih =>
    intro b h
    rw [List.cons_append, hasTickTriple_cons_of_ne (h y (by simp)), ih]
    intro z hz
    exact h z (by simp [hz])

/-- The head-step closure used to push a no-triple fact through one copied
character: if the tail bound transfers and the new tail is triple-free, the
extended list is triple-free. -/
lemma hT_cons_bound {c : Char} {r r2 : List Char}
    (hlead : lead2 r2 = true → lead2 r = true)
    (htail : hasTickTriple r2 = false)
    (h : hasTickTriple (c :: r) = false) : hasTickTriple (c :: r2) = false := by
  rw [hasTickTriple_cons, htail, Bool.or_false]
  rw [hasTickTriple_cons] at h
  rcases Bool.or_eq_false_iff.mp h with ⟨hA, _⟩
  by_cases hc : (c == tick) = true
  · by_cases hl : lead2 r2 = true
    · exfalso
      rw [hc, hlead hl] at hA
      simp at hA
    · rw [Bool.not_eq_true] at hl
      simp [hl]
  · rw [Bool.not_eq_true] at hc
    simp [hc]

/-- The escape pass introduces no backtick triple. -/
lemma escGo_no_triple : ∀ (l : List Char) (s e : Bool),
    hasTickTriple l = false → hasTickTriple (escGo s e l) = false := by
  intro l
  induction l with
  | nil => intro s e _; rw [escGo_nil]; rfl
  | cons c r ih =>
    intro s e h
    have htail : hasTickTriple r = false := hasTickTriple_tail h
    have step : ∀ (s' e' : Bool), hasTickTriple (c :: escGo s' e' r) = false := by
      intro s' e'
      exact hT_cons_bound (escGo_lead2 r s' e') (ih s' e' htail) h
    rcases escGo_cons_view s e c r with ⟨_, hv⟩ | ⟨_, _, hv⟩ | ⟨_, _, _, hv⟩ |
      ⟨_, _, _, _, hv⟩ | ⟨_, _, _, _, hesc, hv⟩ | ⟨_, _, _, _, _, hv⟩ <;> rw [hv]
    · exact step _ _
    · exact step _ _
    · exact step _ _
    · exact step _ _
    · obtain ⟨d, x, he, hd, hx, _⟩ := escapeCharacter_of_esc hesc
      rw [he]
      rw [show ('\\' :: d :: x) ++ escGo true false r = ('\\' :: d :: x) ++ escGo true false r from rfl]
      rw [hT_append_no_tick _ _ ?_]
      · exact ih true false htail
      · intro y hy
        simp only [List.mem_cons] at hy
        rcases hy with rfl | rfl | hy
        · decide
        · exact hd
        · exact (hx y hy).1
    · exact step _ _

/-! ## Trimmedness: whitespace never reappears at the boundaries -/

/-- Is the first character JS whitespace? -/
def headWs : List Char → Bool
  | [] => false
  | c :: _ => isJsWs c

/-- Is the last character JS whitespace? -/
def lastWs : List Char → Bool
  | [] => false
  | [c] => isJsWs c
  | _ :: c :: r => lastWs (c :: r)

lemma lastWs_cons_of_ne {r : List Char} (h : r ≠ []) (c : Char) :
    lastWs (c :: r) = lastWs r := by
  cases r with
  | nil => exact absurd rfl h
  | cons x xs => rfl

lemma lastWs_append : ∀ (a b : List Char), b ≠ [] → lastWs (a ++ b) = lastWs b := by
  intro a
  induction a with
  | nil => intro b _; rfl
  | cons x a' ih =>
    intro b hb
    rw [List.cons_append, lastWs_cons_of_ne (by simp [hb]) x, ih b hb]

lemma lastWs_false_of_all : ∀ (a : List Char), (∀ y ∈ a, isJsWs y = false) → lastWs a = false := by
  intro a
  induction a with
  | nil => intro _; rfl
  | cons y a' ih =>
    intro h
    cases a' with
    | nil => exact h y (by simp)
    | cons z t =>
      rw [lastWs_cons_of_ne (by simp) y]
      exact ih (fun w hw => h w (by simp [hw]))

lemma headWs_dropWhile (l : List Char) : headWs (l.dropWhile isJsWs) = false := by
  induction l with
  | nil => rfl
  | cons c r ih =>
    by_cases h : isJsWs c = true
    · rw [List.dropWhile_cons_of_pos h]; exact ih
    · rw [List.dropWhile_cons_of_neg (by simpa using h)]
      simpa [headWs] using h

lemma headWs_dropTrail {l : List Char} (h : headWs l = false) :
    headWs (dropTrailWs l) = false := by
  cases l with
  | nil => rfl
  | cons c r =>
    rw [dropTrailWs]
    by_cases hc : (dropTrailWs r = [] && isJsWs c) = true
    · simp only [hc, if_true]; rfl
    · simp only [Bool.not_eq_true] at hc
      rw [hc, if_neg (by simp)]
      exact h

lemma lastWs_dropTrail (l : List Char) : lastWs (dropTrailWs l) = false := by
  induction l with
  | nil => rfl
  | cons c r ih =>
    rw [dropTrailWs]
    by_cases hc : (dropTrailWs r = [] && isJsWs c) = true
    · simp only [hc, if_true]; rfl
    · simp only [Bool.not_eq_true] at hc
      rw [hc, if_neg (by simp)]
      by_cases hnil : dropTrailWs r = []
      · have hwc : isJsWs c = false := by
          rcases Bool.and_eq_false_iff.mp hc with h | h
          · exact absurd hnil (by simpa using h)
          · exact h
        rw [hnil]
        exact hwc
      · rw [lastWs_cons_of_ne hnil c]
        exact ih

lemma dropWhile_eq_self_of_headWs {l : List Char} (h : headWs l = false) :
    l.dropWhile isJsWs = l := by
  cases l with
  | nil => rfl
  | cons c r => exact List.dropWhile_cons_of_neg (by simpa [headWs] using h)

lemma dropTrail_eq_self_of_lastWs : ∀ {l : List Char}, lastWs l = false → dropTrailWs l = l := by
  intro l
  induction l with
  | nil => intro _; rfl
  | cons c r ih =>
    intro h
    cases r with
    | nil =>
      have : isJsWs c = false := h
      simp [dropTrailWs, this]
    | cons x xs =>
      rw [lastWs_cons_of_ne (by simp) c] at h
      have hr := ih h
      rw [dropTrailWs, hr]
      simp

lemma jsTrimList_eq_self {l : List Char} (h1 : headWs l = false) (h2 : lastWs l = false) :
    jsTrimList l = l := by
  rw [jsTrimList, dropWhile_eq_self_of_headWs h1, dropTrail_eq_self_of_lastWs h2]

lemma headWs_escGo {l : List Char} (e : Bool) (h : headWs l = false) :
    headWs (escGo false e l) = false := by
  cases l with
  | nil => rfl
  | cons c r => exact h

lemma lastWs_escGo : ∀ (l : List Char) (s e : Bool),
    lastWs l = false → lastWs (escGo s e l) = false := by
  intro l
  induction l with
  | nil => intro s e _; rw [escGo_nil]; rfl
  | cons c r ih =>
    intro s e h
    cases r with
    | nil =>
      have hwc : isJsWs c = false := h
      rcases escGo_cons_view s e c [] with ⟨_, hv⟩ | ⟨_, _, hv⟩ | ⟨_, _, _, hv⟩ |
        ⟨_, _, _, _, hv⟩ | ⟨_, _, _, _, hesc, hv⟩ | ⟨_, _, _, _, _, hv⟩ <;>
        rw [hv] <;> try (rw [escGo_nil]; exact hwc)
      obtain ⟨d, x, he, _, hx, hd⟩ := escapeCharacter_of_esc hesc
      rw [escGo_nil, List.append_nil, he]
      refine lastWs_false_of_all _ ?_
      intro y hy
      simp only [List.mem_cons] at hy
      rcases hy with rfl | rfl | hy
      · decide
      · exact hd
      · exact (hx y hy).2
    | cons d r' =>
      rw [lastWs_cons_of_ne (by simp) c] at h
      have hne : escGo true false (d :: r') ≠ [] := escGo_ne_nil (by simp) _ _
      rcases escGo_cons_view s e c (d :: r') with ⟨_, hv⟩ | ⟨_, _, hv⟩ | ⟨_, _, _, hv⟩ |
        ⟨_, _, _, _, hv⟩ | ⟨_, _, _, _, hesc, hv⟩ | ⟨_, _, _, _, _, hv⟩ <;> rw [hv]
      · rw [lastWs_cons_of_ne (escGo_ne_nil (by simp) _ _) c]; exact ih _ _ h
      · rw [lastWs_cons_of_ne (escGo_ne_nil (by simp) _ _) c]; exact ih _ _ h
      · rw [lastWs_cons_of_ne (escGo_ne_nil (by simp) _ _) c]; exact ih _ _ h
      · rw [lastWs_cons_of_ne (escGo_ne_nil (by simp) _ _) c]; exact ih _ _ h
      · rw [lastWs_append _ _ hne]; exact ih _ _ h
      · rw [lastWs_cons_of_ne (escGo_ne_nil (by simp) _ _) c]; exact ih _ _ h

/-! ## Claim C4: sanitizer idempotence -/

lemma lead1_dropTrail : ∀ l : List Char, lead1 (dropTrailWs l) = true → lead1 l = true := by
  intro l h
  cases l with
  | nil => simp [dropTrailWs, lead1] at h
  | cons c r =>
    rw [dropTrailWs] at h
    by_cases hc : (dropTrailWs r = [] && isJsWs c) = true
    · rw [hc, if_pos rfl] at h
      simp [lead1] at h
    · simp only [Bool.not_eq_true] at hc
      rw [hc, if_neg (by simp)] at h
      simpa [lead1] using h

lemma lead2_dropTrail : ∀ l : List Char, lead2 (dropTrailWs l) = true → lead2 l = true := by
  intro l h
  cases l with
  | nil => simp [dropTrailWs, lead2] at h
  | cons c r =>
    rw [dropTrailWs] at h
    by_cases hc : (dropTrailWs r = [] && isJsWs c) = true
    · rw [hc, if_pos rfl] at h
      simp [lead2] at h
    · simp only [Bool.not_eq_true] at hc
      rw [hc, if_neg (by simp)] at h
      rw [lead2_cons] at h ⊢
      simp only [Bool.and_eq_true] at h
      simp [h.1, lead1_dropTrail r h.2]

lemma hT_dropTrail : ∀ l : List Char, hasTickTriple l = false →
    hasTickTriple (dropTrailWs l) = false := by
  intro l
  induction l with
  | nil => intro _; rfl
  | cons c r ih =>
    intro h
    rw [dropTrailWs]
    by_cases hc : (dropTrailWs r = [] && isJsWs c) = true
    · rw [hc, if_pos rfl]
      rfl
    · simp only [Bool.not_eq_true] at hc
      rw [hc, if_neg (by simp)]
      exact hT_cons_bound (lead2_dropTrail r) (ih (hasTickTriple_tail h)) h

lemma hT_jsTrimList {l : List Char} (h : hasTickTriple l = false) :
    hasTickTriple (jsTrimList l) = false := by
  rw [jsTrimList]
  refine hT_dropTrail _ ?_
  induction l with
  | nil => rfl
  | cons c r ih =>
    by_cases hc : isJsWs c = true
    · rw [List.dropWhile_cons_of_pos hc]
      exact ih (hasTickTriple_tail h)
    · rw [List.dropWhile_cons_of_neg (by simpa using hc)]
      exact h

/-- C4.  `sanitize(sanitize(x)) == sanitize(x)` for every string `x`, where
`sanitize` is `sanitizeJsonResponse` (code-fence removal, trim, then
control-character escaping inside JSON string literals). -/
theorem c4_sanitizer_idempotent (x : String) :
    sanitizeJsonResponse (sanitizeJsonResponse x) = sanitizeJsonResponse x := by
  show String.mk (escGo false false (jsTrimList (fence2Go (fence1Go .normal
      (escGo false false (jsTrimList (fence2Go (fence1Go .normal x.data)))))))) = _
  have hTy : hasTickTriple (jsTrimList (fence2Go (fence1Go .normal x.data))) = false :=
    hT_jsTrimList (fence2Go_no_triple _)
  have hTz : hasTickTriple
      (escGo false false (jsTrimList (fence2Go (fence1Go .normal x.data)))) = false :=
    escGo_no_triple _ _ _ hTy
  have hHy : headWs (jsTrimList (fence2Go (fence1Go .normal x.data))) = false := by
    rw [jsTrimList]
    exact headWs_dropTrail (headWs_dropWhile _)
  have hLy : lastWs (jsTrimList (fence2Go (fence1Go .normal x.data))) = false := by
    rw [jsTrimList]
    exact lastWs_dropTrail _
  rw [fence1Go_id_of_no_triple _ hTz, fence2Go_id_of_no_triple _ hTz,
    jsTrimList_eq_self (headWs_escGo _ hHy) (lastWs_escGo _ _ _ hLy),
    escGo_idem]
  rfl

/-! ## JSON values and a model of JSON.parse

JSON numbers are kept as their source lexeme: no part of the pipeline ever
inspects a numeric value (all consumers only test `typeof x === 'string'`,
array-ness, or truthiness), so the floating-point semantics are not needed. -/

inductive Json where
  | null
  | bool (b : Bool)
  | num (lexeme : String)
  | str (s : String)
  | arr (items : List Json)
  | obj (fields : List (String × Json))

/-- JSON insignificant whitespace (exactly space, tab, LF, CR). -/
def jsonWsChar (c : Char) : Bool :=
  c == ' ' || c == '\t' || c == '\n' || c == '\r'

/-- Value of one hexadecimal digit. -/
def hexVal (c : Char) : Option Nat :=
  if '0' ≤ c && c ≤ '9' then some (c.toNat - 48)
  else if 'a' ≤ c && c ≤ 'f' then some (c.toNat - 87)
  else if 'A' ≤ c && c ≤ 'F' then some (c.toNat - 55)
  else none

/-- Parse the body of a JSON string literal (after the opening quote), up to
and including the closing quote.  Raw control characters (code point < 0x20)
are a parse error, exactly as in JSON.parse.  (Surrogate-pair \u escapes are
outside the scope of this model; the pipeline only meets BMP scalars.) -/
def ppString : List Char → Option (List Char × List Char)
  | [] => none
  | c :: r =>
    if c == '"' then some ([], r)
    else if c == '\\' then
      match r with
      | [] => none
      | e :: r2 =>
        if e == '"' then (ppString r2).map (fun p => ('"' :: p.1, p.2))
        else if e == '\\' then (ppString r2).map (fun p => ('\\' :: p.1, p.2))
        else if e == '/' then (ppString r2).map (fun p => ('/' :: p.1, p.2))
        else if e == 'b' then (ppString r2).map (fun p => (Char.ofNat 8 :: p.1, p.2))
        else if e == 'f' then (ppString r2).map (fun p => (Char.ofNat 12 :: p.1, p.2))
        else if e == 'n' then (ppString r2).map (fun p => ('\n' :: p.1, p.2))
        else if e == 'r' then (ppString r2).map (fun p => ('\r' :: p.1, p.2))
        else if e == 't' then (ppString r2).map (fun p => ('\t' :: p.1, p.2))
        else if e == 'u' then
          match r2 with
          | h1 :: h2 :: h3 :: h4 :: r3 =>
            match hexVal h1, hexVal h2, hexVal h3, hexVal h4 with
            | some a, some b, some c3, some d =>
              (ppString r3).map (fun p =>
                (Char.ofNat (4096 * a + 256 * b + 16 * c3 + d) :: p.1, p.2))
            | _, _, _, _ => none
          | _ => none
        else none
    else if decide (c.toNat < 32) then none
    else (ppString r).map (fun p => (c :: p.1, p.2))

/-- Parse the optional fraction and exponent of a number and return the full
lexeme.  A malformed tail (e.g. a dot with no digit) is left unconsumed, which
makes the enclosing parse fail on the stray character, as JSON.parse does. -/
def ppFracExp (pre : List Char) (l : List Char) : List Char × List Char :=
  let fe :=
    match l with
    | c :: r =>
      if c == '.' then
        match r.span Char.isDigit with
        | (d1, r2) => if d1 = [] then ([], l) else (c :: d1, r2)
      else ([], l)
    | [] => ([], l)
  let l2 := fe.2
  let ex :=
    match l2 with
    | c :: r =>
      if c == 'e' || c == 'E' then
        let se :=
          match r with
          | s :: r3 => if s == '+' || s == '-' then ([s], r3) else (([] : List Char), r)
          | [] => ([], r)
        match se.2.span Char.isDigit with
        | (d2, r4) => if d2 = [] then (([] : List Char), l2) else (c :: (se.1 ++ d2), r4)
      else ([], l2)
    | [] => ([], l2)
  (pre ++ fe.1 ++ ex.1, ex.2)

/-- Parse a JSON number lexeme (leading-zero rules included). -/
def ppNumber (l : List Char) : Option (List Char × List Char) :=
  let sl :=
    match l with
    | c :: r => if c == '-' then (([c] : List Char), r) else (([] : List Char), l)
    | [] => ([], l)
  match sl.2 with
  | [] => none
  | c :: r =>
    if c == '0' then some (ppFracExp (sl.1 ++ [c]) r)
    else if c.isDigit then
      match r.span Char.isDigit with
      | (ds, r2) => some (ppFracExp (sl.1 ++ c :: ds) r2)
    else none

mutual

/-- Parse one JSON value (after skipping leading whitespace). -/
def ppVal : Nat → List Char → Option (Json × List Char)
  | 0, _ => none
  | fuel + 1, l =>
    match l.dropWhile jsonWsChar with
    | [] => none
    | c :: r =>
      if c == '{' then ppObj fuel r
      else if c == '[' then ppArr fuel r
      else if c == '"' then (ppString r).map (fun p => (.str (String.mk p.1), p.2))
      else if c == 't' then
        match r with
        | 'r' :: 'u' :: 'e' :: r3 => some (.bool true, r3)
        | _ => none
      else if c == 'f' then
        match r with
        | 'a' :: 'l' :: 's' :: 'e' :: r3 => some (.bool false, r3)
        | _ => none
      else if c == 'n' then
        match r with
        | 'u' :: 'l' :: 'l' :: r3 => some (.null, r3)
        | _ => none
      else
        (ppNumber (c :: r)).map (fun p => (.num (String.mk p.1), p.2))

/-- Parse an array body after the opening bracket. -/
def ppArr : Nat → List Char → Option (Json × List Char)
  | 0, _ => none
  | fuel + 1, l =>
    match l.dropWhile jsonWsChar with
    | ']' :: r => some (.arr [], r)
    | _ => ppElems fuel l []

/-- Parse the non-empty element list of an array. -/
def ppElems : Nat → List Char → List Json → Option (Json × List Char)
  | 0, _, _ => none
  | fuel + 1, l, acc =>
    match ppVal fuel l with
    | none => none
    | some (v, rest) =>
      match rest.dropWhile jsonWsChar with
      | ']' :: r2 => some (.arr (v :: acc).reverse, r2)
      | ',' :: r2 => ppElems fuel r2 (v :: acc)
      | _ => none

/-- Parse an object body after the opening brace. -/
def ppObj : Nat → List Char → Option (Json × List Char)
  | 0, _ => none
  | fuel + 1, l =>
    match l.dropWhile jsonWsChar with
    | '}' :: r => some (.obj [], r)
    | _ => ppMems fuel l []

/-- Parse the non-empty member list of an object. -/
def ppMems : Nat → List Char → List (String × Json) → Option (Json × List Char)
  | 0, _, _ => none
  | fuel + 1, l, acc =>
    match l.dropWhile jsonWsChar with
    | '"' :: r =>
      match ppString r with
      | none => none
      | some (key, rest) =>
        match rest.dropWhile jsonWsChar with
        | ':' :: r2 =>
          match ppVal fuel r2 with
          | none => none
          | some (v, rest2) =>
            match rest2.dropWhile jsonWsChar with
            | '}' :: r3 => some (.obj ((String.mk key, v) :: acc).reverse, r3)
            | ',' :: r3 => ppMems fuel r3 ((String.mk key, v) :: acc)
            | _ => none
        | _ => none
    | _ => none

end

/-- The model of `JSON.parse`: parse one value and require only whitespace to
remain. -/
def jsonParse (s : String) : Option Json :=
  match ppVal (4 * s.data.length + 16) s.data with
  | some (v, rest) => if rest.dropWhile jsonWsChar = [] then some v else none
  | none => none

/-! ## JavaScript value helpers -/

/-- Property access `o[k]` on a parsed JSON value: `none` models `undefined`.
JSON.parse keeps the last of duplicate keys, hence the reversed search. -/
def jsGet : Json → String → Option Json
  | .obj fs, k => (fs.reverse.find? (fun p => p.1 == k)).map (fun p => p.2)
  | _, _ => none

/-- Is every digit of the mantissa of a number lexeme zero? -/
def numLexIsZero (lex : String) : Bool :=
  (lex.data.takeWhile (fun c => c != 'e' && c != 'E')).all
    (fun c => !c.isDigit || c == '0')

/-- JavaScript truthiness of a parsed JSON value. -/
def jsTruthy : Json → Bool
  | .null => false
  | .bool b => b
  | .str s => s != ""
  | .num lex => !numLexIsZero lex
  | .arr _ => true
  | .obj _ => true

/-- `String(x)` coercion of an element nested inside an array (one level deep:
the pipeline only ever coerces strings, so deeper nesting is approximated). -/
def jsStrAtom : Json → String
  | .str s => s
  | .null => ""
  | .bool true => "true"
  | .bool false => "false"
  | .num lex => lex
  | .arr _ => ""
  | .obj _ => "[object Object]"

/-- `String(x)` coercion of a parsed JSON value. -/
def jsString : Json → String
  | .str s => s
  | .null => "null"
  | .bool true => "true"
  | .bool false => "false"
  | .num lex => lex
  | .arr items => String.intercalate "," (items.map jsStrAtom)
  | .obj _ => "[object Object]"

/-- C5.  The escaping pass copies every character unchanged while outside a
string literal; inside a string literal and not within an escape sequence it
replaces newline, carriage return, tab, and every other control character
(code point < 0x20) by its JSON escape (\n, \r, \t, \uXXXX) and copies all
other characters.  In particular the payload with a literal newline byte
inside the value of "a" does not parse as JSON, but its sanitized form parses
with a == "line1\nline2". -/
theorem c5_escape_control_chars_in_strings :
    (∀ (e : Bool) (c : Char) (rest : List Char),
        escGo false e (c :: rest) = c :: escGo (c == '"') e rest) ∧
    (∀ (c : Char) (rest : List Char),
        escGo true false (c :: rest) =
          (if c == '\\' then c :: escGo true true rest
           else if c == '"' then c :: escGo false false rest
           else if shouldEscapeCharacter c then escapeCharacter c ++ escGo true false rest
           else c :: escGo true false rest)) ∧
    escapeCharacter '\n' = ['\\', 'n'] ∧
    escapeCharacter '\r' = ['\\', 'r'] ∧
    escapeCharacter '\t' = ['\\', 't'] ∧
    escapeCharacter (Char.ofNat 1) = ['\\', 'u', '0', '0', '0', '1'] ∧
    escapeControlCharacters "\x7b\"a\":\"line1\nline2\"\x7d" =
      "\x7b\"a\":\"line1\\nline2\"\x7d" ∧
    jsonParse "\x7b\"a\":\"line1\nline2\"\x7d" = none ∧
    jsonParse (sanitizeJsonResponse "\x7b\"a\":\"line1\nline2\"\x7d") =
      some (.obj [("a", .str "line1\nline2")]) := by
  refine ⟨?_, ?_, by decide, by decide, by decide, by decide, by decide, ?_, ?_⟩
  · intro e c rest
    cases e <;> rfl
  · intro c rest
    rfl
  · rfl
  · rfl

/-! ## shared/constants/issue-types.ts: the issue-type registry

The fields read by the claims and by buildIssueTypeGuide are carried (key,
label, aliases, sections); the badge color feeds only the UI and is dropped. -/

/-- A section template of an issue type.  In the source, `bullets` and
`checklist` are optional properties guarded by truthiness; an absent property
is carried as [] (an empty array contributes no lines either way). -/
structure IssueTypeSection where
  title : String
  bullets : List String
  checklist : List String

structure IssueTypeMeta where
  key : String
  label : String
  aliases : List String
  sections : List IssueTypeSection

/-- The ten entries of ISSUE_TYPES_DEFINITION, in declaration order. -/
def ISSUE_TYPE_LIST : List IssueTypeMeta := [
  ⟨"bug", "Bug", ["defect"],
    [⟨"Summary", [], []⟩,
     ⟨"Context / Background", [], []⟩,
     ⟨"Steps to Reproduce", [], []⟩,
     ⟨"Expected Behavior", [], []⟩,
     ⟨"Actual Behavior", [], []⟩,
     ⟨"Impact / Severity", [], []⟩,
     ⟨"Acceptance Criteria", [],
       ["Issue can be reproduced and confirmed fixed",
        "Behavior matches expectations"]⟩]⟩,
  ⟨"story", "Story / Feature",
    ["feature", "user story", "story_feature", "story-feature", "story_feature_story"],
    [⟨"Summary", [], []⟩,
     ⟨"User Story",
       ["As a [type of user],",
        "I want [goal or need],",
        "So that [benefit or value]."], []⟩,
     ⟨"Context", [], []⟩,
     ⟨"Functional Requirements",
       ["Key features or functional expectations",
        "Dependencies or API changes"], []⟩,
     ⟨"Acceptance Criteria", [],
       ["Clear, testable outcomes",
        "UX and design requirements met",
        "Accessible and localized (if applicable)"]⟩]⟩,
  ⟨"task", "Task", ["internal task"],
    [⟨"Objective", [], []⟩,
     ⟨"Context", [], []⟩,
     ⟨"Scope", [], []⟩,
     ⟨"Acceptance Criteria", [],
       ["Task completed successfully",
        "No user-facing regressions"]⟩]⟩,
  ⟨"spike", "Spike / Research", ["research", "investigation", "spike_research"],
    [⟨"Goal", [], []⟩,
     ⟨"Context", [], []⟩,
     ⟨"Research Questions / Hypotheses",
       ["What are we exploring?",
        "What must we confirm?"], []⟩,
     ⟨"Deliverables",
       ["Summary of findings",
        "Recommended next steps or implementation approach"], []⟩,
     ⟨"Timebox", [], []⟩]⟩,
  ⟨"technical_debt", "Technical Debt / Refactor",
    ["technical debt", "refactor", "technical_debt_refactor", "technicaldebt"],
    [⟨"Summary", [], []⟩,
     ⟨"Context", [], []⟩,
     ⟨"Proposed Changes",
       ["Describe the intended cleanup or restructuring",
        "List affected modules/components"], []⟩,
     ⟨"Benefits",
       ["Explain how it improves maintainability, performance, or reliability"], []⟩,
     ⟨"Acceptance Criteria", [],
       ["Code simplified or reorganized as intended",
        "Tests still pass",
        "No functional regressions"]⟩]⟩,
  ⟨"epic", "Epic", ["initiative"],
    [⟨"Summary", [], []⟩,
     ⟨"Objective", [], []⟩,
     ⟨"Context", [], []⟩,
     ⟨"Scope",
       ["What's included",
        "What's explicitly out of scope"], []⟩,
     ⟨"Success Criteria / KPIs", [], []⟩,
     ⟨"Child Issues", [], []⟩]⟩,
  ⟨"improvement", "Improvement / Enhancement", ["enhancement", "improvement_enhancement"],
    [⟨"Summary", [], []⟩,
     ⟨"Context", [], []⟩,
     ⟨"Current vs Desired Behavior", [], []⟩,
     ⟨"Acceptance Criteria", [],
       ["Improved behavior matches new spec",
        "Regression-tested"]⟩]⟩,
  ⟨"chore", "Chore / Maintenance", ["maintenance", "chore_maintenance"],
    [⟨"Summary", [], []⟩,
     ⟨"Context", [], []⟩,
     ⟨"Tasks", [],
       ["Itemized list of updates or checks"]⟩,
     ⟨"Acceptance Criteria", [],
       ["Maintenance completed and verified",
        "No production issues introduced"]⟩]⟩,
  ⟨"qa", "QA / Test Case", ["test_case", "qa test case", "qa_test_case", "testcase"],
    [⟨"Test Objective", [], []⟩,
     ⟨"Preconditions", [], []⟩,
     ⟨"Test Steps", [], []⟩,
     ⟨"Acceptance Criteria", [],
       ["All test cases pass",
        "Regression tests executed successfully"]⟩]⟩,
  ⟨"documentation", "Documentation", ["docs"],
    [⟨"Goal", [], []⟩,
     ⟨"Context", [], []⟩,
     ⟨"Scope", [], []⟩,
     ⟨"Acceptance Criteria", [],
       ["Documentation written and reviewed",
        "Linked from relevant code or UI",
        "Accessible to intended audience"]⟩]⟩]

/-- The ten issue-type keys (ISSUE_TYPE_KEYS / the ISSUE_TYPES array of
issue-generation.ts). -/
def ISSUE_TYPE_KEYS : List String := ISSUE_TYPE_LIST.map (fun m => m.key)

/-- Collapse runs of underscores to one (the replace of /_+/g by '_'). -/
def collapseUnderscores : Nat → List Char → List Char
  | 0, l => l
  | _ + 1, [] => []
  | f + 1, c :: r =>
    if c == '_' then '_' :: collapseUnderscores f (r.dropWhile (fun x => x == '_'))
    else c :: collapseUnderscores f r

/-- Strip one leading and one trailing underscore (the replace of /^_|_$/g). -/
def stripEdgeUnderscores (l : List Char) : List Char :=
  let l1 := match l with
    | c :: r => if c == '_' then r else l
    | [] => l
  match l1.getLast? with
  | some c => if c == '_' then l1.dropLast else l1
  | none => l1

/-- `normalizeToken` from issue-types.ts: lower-case, non-letters to
underscores, collapse underscore runs, strip edge underscores. -/
def normalizeToken (s : String) : String :=
  let lowered := (s.data.map Char.toLower).map (fun c => if 'a' ≤ c && c ≤ 'z' then c else '_')
  String.mk (stripEdgeUnderscores (collapseUnderscores (lowered.length + 1) lowered))

/-- The insertion-ordered (token, key) pairs of ISSUE_TYPE_ALIAS_MAP.  The
JS Set around [key, label, ...aliases] only removes duplicate strings that
would re-insert an identical pair, so it is dropped. -/
def aliasPairs : List (String × String) :=
  (ISSUE_TYPE_LIST.map (fun m =>
    (m.key :: m.label :: m.aliases).filterMap (fun a =>
      if normalizeToken a = "" then none else some (normalizeToken a, m.key)))).flatten

/-- Map.get on the alias map (Map.set overwrites, so the last pair wins). -/
def aliasMapGet (token : String) : Option String :=
  (aliasPairs.reverse.find? (fun p => p.1 == token)).map (fun p => p.2)

/-- `normalizeIssueType` from issue-types.ts: null for non-strings, otherwise
the alias-map entry of the normalized token (null when absent). -/
def normalizeIssueType (v : Json) : Option String :=
  match v with
  | .str s => aliasMapGet (normalizeToken s)
  | _ => none

/-- C9.  "Bug", "defect" and "BUG" all normalize to the key 'bug'; a string
whose normalized token matches no issue-type key, label or alias normalizes
to null, and every non-string input normalizes to null. -/
theorem c9_issue_type_alias_normalization :
    normalizeIssueType (.str "Bug") = some "bug" ∧
    normalizeIssueType (.str "defect") = some "bug" ∧
    normalizeIssueType (.str "BUG") = some "bug" ∧
    (∀ s : String,
      (∀ m ∈ ISSUE_TYPE_LIST, ∀ a ∈ m.key :: m.label :: m.aliases,
        normalizeToken a ≠ normalizeToken s) →
      normalizeIssueType (.str s) = none) ∧
    (∀ j : Json, (∀ s : String, j ≠ .str s) → normalizeIssueType j = none) := by
  refine ⟨by decide, by decide, by decide, ?_, ?_⟩
  · intro s hs
    show aliasMapGet (normalizeToken s) = none
    rw [aliasMapGet, List.find?_eq_none.mpr ?_]
    · rfl
    · intro p hp
      rw [List.mem_reverse] at hp
      rw [aliasPairs] at hp
      rw [List.mem_flatten] at hp
      obtain ⟨lp, hlp, hplp⟩ := hp
      rw [List.mem_map] at hlp
      obtain ⟨m, hm, rfl⟩ := hlp
      rw [List.mem_filterMap] at hplp
      obtain ⟨a, ha, hpa⟩ := hplp
      by_cases hz : normalizeToken a = ""
      · rw [if_pos hz] at hpa
        exact Option.noConfusion hpa
      · rw [if_neg hz] at hpa
        have hpe := Option.some.inj hpa
        subst hpe
        simpa using hs m hm a ha
  · intro j hj
    match j with
    | .str s => exact absurd rfl (hj s)
    | .null => rfl
    | .bool _ => rfl
    | .num _ => rfl
    | .arr _ => rfl
    | .obj _ => rfl

/-- Witness for C9 at concrete inputs: an unrecognized string and a
non-string both normalize to null. -/
theorem c9_issue_type_alias_normalization_witness :
    normalizeIssueType (.str "not_a_real_type") = none ∧
    normalizeIssueType (.bool true) = none := by
  constructor
  · exact c9_issue_type_alias_normalization.2.2.2.1 "not_a_real_type" (by decide)
  · exact c9_issue_type_alias_normalization.2.2.2.2 (.bool true) (fun s h => by cases h)

/-! ## shared/types/issue-generation.ts: parseIssueGenerationResult

The runtime result object is modelled as one flat record whose `Option`
fields track which properties the constructed JS object carries
(`none` = absent/undefined; for the `x ?? undefined` passthrough fields and
for values defaulted to JS null, null is likewise modelled as `none`). -/

/-- `isString` from issue-generation.ts, on a present property. -/
def optIsString : Option Json → Bool
  | some (.str _) => true
  | _ => false

/-- The string of a present string property. -/
def optAsString : Option Json → Option String
  | some (.str s) => some s
  | _ => none

/-- `isStringArray` from issue-generation.ts: the element list when the
property is an array of strings. -/
def optStringArray : Option Json → Option (List String)
  | some (.arr l) =>
    if l.all (fun j => match j with | .str _ => true | _ => false) then
      some (l.filterMap (fun j => match j with | .str s => some s | _ => none))
    else none
  | _ => none

/-- The `x ?? undefined` passthrough: collapse null to absent. -/
def optNullish : Option Json → Option Json
  | some .null => none
  | some j => some j
  | none => none

/-- The status discriminant of an accepted result. -/
inductive GenStatus | enough | notEnough
deriving DecidableEq

/-- The runtime shape of an accepted IssueGenerationResult. -/
structure GenValue where
  status : GenStatus
  title : Option String := none
  issueType : Option String := none
  scope : Option String := none
  description : Option String := none
  reason : Option String := none
  clarificationRequest : Option String := none
  suggestedIssueType : Option String := none
  missingSections : Option (List String) := none
  priority : Option Json := none
  severity : Option Json := none
  labels : Option (List String) := none
  components : Option (List String) := none
  epicLink : Option Json := none
  parent : Option Json := none
  dependencies : Option (List String) := none
  estimate : Option Json := none
  riskAreas : Option (List String) := none
  dataSensitivity : Option Json := none
  acceptanceCriteria : Option (List String) := none
  multiItem : Option Bool := none

/-- The ok/error result of parseIssueGenerationResult. -/
inductive ParseResult
  | ok (value : GenValue)
  | err (error : String)

def ParseResult.isOk : ParseResult → Bool
  | .ok _ => true
  | .err _ => false

/-- The required-string test of the enough path: present, a string, and
non-blank after trim (`!isString(val) || !val.trim()` fails). -/
def reqNonBlankString : Option Json → Option String
  | some (.str s) => if jsTrim s = "" then none else some s
  | _ => none

/-- `parseIssueGenerationResult` from issue-generation.ts. -/
def parseIssueGenerationResult (raw : Json) : ParseResult :=
  match raw with
  | .obj _ =>
    match jsGet raw "status" with
    | some (.str "not_enough") =>
      if optIsString (jsGet raw "reason") && optIsString (jsGet raw "clarificationRequest") then
        .ok {
          status := .notEnough
          reason := optAsString (jsGet raw "reason")
          clarificationRequest := optAsString (jsGet raw "clarificationRequest")
          suggestedIssueType :=
            match jsGet raw "suggestedIssueType" with
            | some (.str s) => if s ∈ ISSUE_TYPE_KEYS then some s else none
            | _ => none
          missingSections := some ((optStringArray (jsGet raw "missingSections")).getD [])
          title := optAsString (jsGet raw "title")
          issueType :=
            match jsGet raw "issueType" with
            | some (.str s) => if s ∈ ISSUE_TYPE_KEYS then some s else none
            | _ => none
          scope := optAsString (jsGet raw "scope")
          description := optAsString (jsGet raw "description")
          acceptanceCriteria := optStringArray (jsGet raw "acceptanceCriteria")
          priority := optNullish (jsGet raw "priority")
          severity := optNullish (jsGet raw "severity")
          labels := optStringArray (jsGet raw "labels")
          components := optStringArray (jsGet raw "components")
          epicLink := optNullish (jsGet raw "epicLink")
          parent := optNullish (jsGet raw "parent")
          dependencies := optStringArray (jsGet raw "dependencies")
          estimate := optNullish (jsGet raw "estimate")
          riskAreas := optStringArray (jsGet raw "riskAreas")
          dataSensitivity := optNullish (jsGet raw "dataSensitivity")
          multiItem :=
            match jsGet raw "multiItem" with
            | some (.bool b) => some b
            | _ => none }
      else .err "Missing reason or clarificationRequest"
    | some (.str "enough") =>
      match reqNonBlankString (jsGet raw "title") with
      | none => .err "Missing or invalid title"
      | some t =>
        match reqNonBlankString (jsGet raw "issueType") with
        | none => .err "Missing or invalid issueType"
        | some ty =>
          match reqNonBlankString (jsGet raw "scope") with
          | none => .err "Missing or invalid scope"
          | some sc =>
            match reqNonBlankString (jsGet raw "description") with
            | none => .err "Missing or invalid description"
            | some d =>
              if ty ∉ ISSUE_TYPE_KEYS then .err "Unknown issueType"
              else
                .ok {
                  status := .enough
                  title := some t
                  issueType := some ty
                  scope := some sc
                  description := some d
                  priority :=
                    match jsGet raw "priority" with
                    | some (.str p) =>
                      if p ∈ ["highest", "high", "medium", "low"] then some (.str p) else none
                    | _ => none
                  severity :=
                    match jsGet raw "severity" with
                    | some (.str p) =>
                      if p ∈ ["critical", "major", "minor", "trivial"] then some (.str p) else none
                    | _ => none
                  labels := some ((optStringArray (jsGet raw "labels")).getD [])
                  components := some ((optStringArray (jsGet raw "components")).getD [])
                  epicLink := (optAsString (jsGet raw "epicLink")).map .str
                  parent := (optAsString (jsGet raw "parent")).map .str
                  dependencies := some ((optStringArray (jsGet raw "dependencies")).getD [])
                  estimate := (optAsString (jsGet raw "estimate")).map .str
                  riskAreas := some ((optStringArray (jsGet raw "riskAreas")).getD [])
                  dataSensitivity := some (.str
                    (match jsGet raw "dataSensitivity" with
                     | some (.str p) =>
                       if p ∈ ["none", "contains-pii", "contains-financial", "unknown"] then p
                       else "unknown"
                     | _ => "unknown"))
                  acceptanceCriteria := some ((optStringArray (jsGet raw "acceptanceCriteria")).getD [])
                  multiItem := some
                    (match jsGet raw "multiItem" with
                     | some (.bool b) => b
                     | _ => false) }
    | _ => .err "Invalid status"
  | .null => .err "Not an object"
  | .bool _ => .err "Not an object"
  | .num _ => .err "Not an object"
  | .str _ => .err "Not an object"
  | .arr _ => .err "Invalid status"

lemma optIsString_exists {o : Option Json} :
    optIsString o = true ↔ ∃ s, o = some (.str s) := by
  cases o with
  | none => simp [optIsString]
  | some j => cases j <;> simp [optIsString]

/-- C7 (counterexample).  A not_enough object whose reason and
clarificationRequest are both present but empty strings is accepted by the
validator, although the claim states it is rejected. -/
theorem c7_empty_strings_accepted :
    (parseIssueGenerationResult (.obj [("status", .str "not_enough"),
      ("reason", .str ""), ("clarificationRequest", .str "")])).isOk = true := by
  rfl

/-- C7 (amended).  For a parsed object with status 'not_enough', the validator
accepts exactly when reason and clarificationRequest are both strings —
including empty strings; it rejects only when either is missing or not a
string. -/
theorem c7_not_enough_requires_string_fields (fs : List (String × Json))
    (hst : jsGet (.obj fs) "status" = some (.str "not_enough")) :
    (parseIssueGenerationResult (.obj fs)).isOk = true ↔
      ((∃ r, jsGet (.obj fs) "reason" = some (.str r)) ∧
       (∃ c, jsGet (.obj fs) "clarificationRequest" = some (.str c))) := by
  rw [← optIsString_exists, ← optIsString_exists]
  simp only [parseIssueGenerationResult, hst]
  by_cases h1 : optIsString (jsGet (.obj fs) "reason") = true
  · by_cases h2 : optIsString (jsGet (.obj fs) "clarificationRequest") = true
    · simp [h1, h2, ParseResult.isOk]
    · simp only [Bool.not_eq_true] at h2
      simp [h1, h2, ParseResult.isOk]
  · simp only [Bool.not_eq_true] at h1
    simp [h1, ParseResult.isOk]

/-- Witness for C7 at a concrete input: a not_enough object with (non-empty)
string reason and clarificationRequest is accepted. -/
theorem c7_not_enough_requires_string_fields_witness :
    (parseIssueGenerationResult (.obj [("status", .str "not_enough"),
      ("reason", .str "too vague"), ("clarificationRequest", .str "what fails?")])).isOk
      = true := by
  exact (c7_not_enough_requires_string_fields
    [("status", .str "not_enough"), ("reason", .str "too vague"),
     ("clarificationRequest", .str "what fails?")] rfl).mpr
    ⟨⟨"too vague", rfl⟩, ⟨"what fails?", rfl⟩⟩

/-- Does an accepted result populate both shapes at once: the not_enough
discriminant together with its insufficiency fields and draft ticket fields? -/
def resultCarriesBothShapes : ParseResult → Bool
  | .ok v =>
    (match v.status with | .notEnough => true | .enough => false) &&
    v.reason.isSome && v.clarificationRequest.isSome &&
    v.title.isSome && v.description.isSome
  | .err _ => false

/-- C3 (counterexample).  The validator accepts a not_enough payload that also
carries title and description; the accepted value populates the insufficiency
fields and ticket fields at once, so a not_enough result does not carry "only"
the insufficiency fields. -/
theorem c3_not_enough_carries_ticket_fields :
    resultCarriesBothShapes (parseIssueGenerationResult (.obj [
      ("status", .str "not_enough"), ("reason", .str "no repro steps"),
      ("clarificationRequest", .str "What steps trigger the crash?"),
      ("title", .str "[UI]: Save crash"),
      ("description", .str "Crash on save")])) = true := by
  rfl

/-- C3 (amended).  Every value accepted by the validator has exactly one
status: with status 'enough' it carries the required ticket fields and none of
the insufficiency fields (reason, clarificationRequest, suggestedIssueType,
missingSections); with status 'not_enough' it always carries reason,
clarificationRequest and missingSections, and may additionally carry optional
draft ticket fields copied from the payload. -/
theorem c3_exactly_one_status_shape (j : Json) (v : GenValue)
    (h : parseIssueGenerationResult j = .ok v) :
    (v.status = .enough ∧ v.reason = none ∧ v.clarificationRequest = none ∧
      v.suggestedIssueType = none ∧ v.missingSections = none ∧
      v.title ≠ none ∧ v.issueType ≠ none ∧ v.scope ≠ none ∧ v.description ≠ none) ∨
    (v.status = .notEnough ∧ v.reason ≠ none ∧ v.clarificationRequest ≠ none ∧
      v.missingSections ≠ none) := by
  unfold parseIssueGenerationResult at h
  split at h
  all_goals try exact ParseResult.noConfusion h
  split at h
  · -- not_enough status: the accepting if
    split at h
    · rename_i hok
      simp only [Bool.and_eq_true] at hok
      injection h with h2
      subst h2
      right
      refine ⟨rfl, ?_, ?_, by simp⟩
      · obtain ⟨s, hs⟩ := optIsString_exists.mp hok.1
        simp [hs, optAsString]
      · obtain ⟨s, hs⟩ := optIsString_exists.mp hok.2
        simp [hs, optAsString]
    · exact ParseResult.noConfusion h
  · -- enough status: the four required strings, then the key check
    split at h
    · exact ParseResult.noConfusion h
    · split at h
      · exact ParseResult.noConfusion h
      · split at h
        · exact ParseResult.noConfusion h
        · split at h
          · exact ParseResult.noConfusion h
          · split at h
            · exact ParseResult.noConfusion h
            · injection h with h2
              subst h2
              left
              simp
  · exact ParseResult.noConfusion h

/-- The value produced by the validator on the witness enough payload. -/
def c3WitnessValue : GenValue :=
  { status := .enough, title := some "[UI]: Save crash", issueType := some "bug",
    scope := some "ui",
    description := some "The app crashes when saving a draft issue form.",
    labels := some [], components := some [], dependencies := some [],
    riskAreas := some [], dataSensitivity := some (.str "unknown"),
    acceptanceCriteria := some [], multiItem := some false }

set_option maxRecDepth 8192 in
/-- Witness for C3 at a concrete accepted input (an enough payload): the
accepted value has the enough status and no insufficiency fields. -/
theorem c3_exactly_one_status_shape_witness :
    c3WitnessValue.status = GenStatus.enough ∧ c3WitnessValue.reason = none ∧
    c3WitnessValue.clarificationRequest = none ∧ c3WitnessValue.title ≠ none := by
  rcases c3_exactly_one_status_shape (.obj [
      ("status", .str "enough"), ("title", .str "[UI]: Save crash"),
      ("issueType", .str "bug"), ("scope", .str "ui"),
      ("description", .str "The app crashes when saving a draft issue form.")])
      c3WitnessValue (by rfl) with h | h
  · exact ⟨h.1, h.2.1, h.2.2.1, h.2.2.2.2.2.1⟩
  · exact absurd h.1 (by decide)

/-! ## server/api/prompt.ts: completion messages and payload extraction

Message content is modelled by the closed shape set the extractors probe:
a nullish value, a plain string, an array of parts, or an object carrying
text/content/arguments properties (absent properties are `cnone`). -/

mutual
inductive Content where
  | cnone
  | cstr (s : String)
  | carr (items : CList)
  | cobj (textF contentF argumentsF : Content)
inductive CList where
  | cnil
  | ccons (head : Content) (tail : CList)
end

mutual

/-- `flatten` of the clarification-loop variant:
`flatten(content.text ?? content.content ?? content.arguments)` on objects,
join of the flattened parts on arrays. -/
def flatten : Content → String
  | .cnone => ""
  | .cstr s => s
  | .carr items => flattenParts items
  | .cobj .cnone .cnone a => flatten a
  | .cobj .cnone c _ => flatten c
  | .cobj t _ _ => flatten t

def flattenParts : CList → String
  | .cnil => ""
  | .ccons h t => flatten h ++ flattenParts t

end

mutual

/-- `flattenMessageContent` of the legacy variant: on objects it takes the
first non-empty of flatten(text) and flatten(content), else the arguments
property when it is a string. -/
def flattenMessageContent : Content → String
  | .cnone => ""
  | .cstr s => s
  | .carr items => flattenMCParts items
  | .cobj t c a =>
    let ft := flattenMessageContent t
    if ft ≠ "" then ft
    else
      let fc := flattenMessageContent c
      if fc ≠ "" then fc
      else
        match a with
        | .cstr s => s
        | _ => ""

def flattenMCParts : CList → String
  | .cnil => ""
  | .ccons h t => flattenMessageContent h ++ flattenMCParts t

end

structure ToolFunction where
  /-- `arguments` when it is a string; a missing or non-string arguments
  property is `none` (both are skipped identically by the extractors). -/
  arguments : Option String := none

structure ToolCall where
  type : String
  function : Option ToolFunction := none

structure ChatMsg where
  content : Content := .cnone
  tool_calls : List ToolCall := []
  refusal : Option String := none

structure Choice where
  message : Option ChatMsg := none

/-- One role-tagged message sent to the completion API. -/
structure ChatMessage where
  role : String
  content : String
deriving DecidableEq

/-- The errors thrown by the pipeline (each a createError in the source). -/
inductive Err where
  | missingMessage (stage : String)
  | refused (stage : String)
  | emptyResponse (stage : String)
  | invalidJson (stage : String)
  | missingFields (stage : String)
  | invalidJsonFromModel
  | unexpectedResponse
  | noText
  | noApiKey
deriving DecidableEq

/-- The tool-call test of both extractors:
`call?.type === 'function' && typeof call.function?.arguments === 'string'
&& call.function.arguments.trim()`; yields the arguments string on success. -/
def toolCallArgs (c : ToolCall) : Option String :=
  if c.type == "function" then
    match c.function with
    | some f =>
      match f.arguments with
      | some a => if jsTrim a ≠ "" then some a else none
      | none => none
    | none => none
  else none

/-- `extractPayload` of the clarification-loop variant. -/
def extractPayload (choice : Option Choice) (stage : String) : Except Err String :=
  match choice with
  | none => .error (.missingMessage stage)
  | some ch =>
    match ch.message with
    | none => .error (.missingMessage stage)
    | some m =>
      let raw := flatten m.content
      if jsTrim raw ≠ "" then .ok (sanitizeJsonResponse raw)
      else
        match m.tool_calls.findSome? toolCallArgs with
        | some args => .ok (sanitizeJsonResponse args)
        | none =>
          match m.refusal with
          | some rS =>
            if jsTrim rS ≠ "" then .error (.refused stage) else .error (.emptyResponse stage)
          | none => .error (.emptyResponse stage)

/-- C6 (counterexample).  A message with empty content and a function tool
call whose arguments string " " is non-empty (but blank) yields EmptyResponse,
although the claim says the tool-call payload is returned. -/
theorem c6_blank_tool_args_not_used :
    extractPayload (some ⟨some ⟨.cnone,
      [{ type := "function", function := some ⟨some " "⟩ }], none⟩⟩) "primary" =
      .error (.emptyResponse "primary") := rfl

/-- C6 (amended).  Payload extraction follows the layered fallback: non-blank
flattened content is sanitized and returned; otherwise the first function-type
tool call whose arguments string is non-empty after trimming is sanitized and
returned; otherwise a refusal that is non-empty after trimming yields the
distinct Refused error, never EmptyResponse; otherwise EmptyResponse. -/
lemma extractPayload_some (m : ChatMsg) (stage : String) :
    extractPayload (some ⟨some m⟩) stage =
      (if jsTrim (flatten m.content) ≠ "" then
        .ok (sanitizeJsonResponse (flatten m.content))
       else
        match m.tool_calls.findSome? toolCallArgs with
        | some args => .ok (sanitizeJsonResponse args)
        | none =>
          match m.refusal with
          | some rS =>
            if jsTrim rS ≠ "" then .error (.refused stage) else .error (.emptyResponse stage)
          | none => .error (.emptyResponse stage)) := rfl

theorem c6_extraction_layered_fallback (m : ChatMsg) (stage : String) :
    (∀ c a, toolCallArgs c = some a ↔
      (c.type = "function" ∧ ∃ f, c.function = some f ∧ f.arguments = some a ∧
        jsTrim a ≠ "")) ∧
    (jsTrim (flatten m.content) ≠ "" →
      extractPayload (some ⟨some m⟩) stage =
        .ok (sanitizeJsonResponse (flatten m.content))) ∧
    (jsTrim (flatten m.content) = "" →
      (∀ args, m.tool_calls.findSome? toolCallArgs = some args →
        extractPayload (some ⟨some m⟩) stage =
          .ok (sanitizeJsonResponse args)) ∧
      (m.tool_calls.findSome? toolCallArgs = none →
        (∀ rS, m.refusal = some rS → jsTrim rS ≠ "" →
          extractPayload (some ⟨some m⟩) stage = .error (.refused stage)) ∧
        ((match m.refusal with | some rS => jsTrim rS = "" | none => True) →
          extractPayload (some ⟨some m⟩) stage =
            .error (.emptyResponse stage)))) := by
  refine ⟨?_, ?_, ?_⟩
  · intro c a
    constructor
    · intro h
      unfold toolCallArgs at h
      split at h
      · rename_i ht
        split at h
        · rename_i f hf
          split at h
          · rename_i a0 ha
            split at h
            · rename_i hb
              cases h
              exact ⟨by simpa using ht, f, hf, ha, hb⟩
            · exact Option.noConfusion h
          · exact Option.noConfusion h
        · exact Option.noConfusion h
      · exact Option.noConfusion h
    · rintro ⟨ht, f, hf, ha, hb⟩
      rw [toolCallArgs, if_pos (by simp [ht]), hf]
      show (match f.arguments with
        | some a => if jsTrim a ≠ "" then some a else none
        | none => none) = some a
      rw [ha]
      show (if jsTrim a ≠ "" then some a else none) = some a
      exact if_pos hb
  · intro hc
    rw [extractPayload_some, if_pos hc]
  · intro hc
    refine ⟨?_, ?_⟩
    · intro args hargs
      rw [extractPayload_some, if_neg (by simp [hc]), hargs]
    · intro hnone
      refine ⟨?_, ?_⟩
      · intro rS hrS hb
        rw [extractPayload_some, if_neg (by simp [hc]), hnone, hrS]
        show (if jsTrim rS ≠ "" then Except.error (Err.refused stage)
          else Except.error (Err.emptyResponse stage)) = Except.error (Err.refused stage)
        exact if_pos hb
      · intro href
        match hr : m.refusal with
        | none => rw [extractPayload_some, if_neg (by simp [hc]), hnone, hr]
        | some rS =>
          rw [hr] at href
          rw [extractPayload_some, if_neg (by simp [hc]), hnone, hr]
          show (if jsTrim rS ≠ "" then Except.error (Err.refused stage)
            else Except.error (Err.emptyResponse stage)) = Except.error (Err.emptyResponse stage)
          exact if_neg (by simp [href])

/-- Witness for C6 at a concrete message: empty content plus a function tool
call with (non-blank) arguments yields the tool-call payload. -/
theorem c6_extraction_layered_fallback_witness :
    extractPayload (some ⟨some ⟨.cstr "",
      [{ type := "function", function := some ⟨some "x"⟩ }], none⟩⟩) "primary" =
      .ok "x" := by
  exact ((c6_extraction_layered_fallback ⟨.cstr "",
    [{ type := "function", function := some ⟨some "x"⟩ }], none⟩ "primary").2.2 rfl).1 "x" rfl

/-! ## server/api/prompt.ts (legacy variant): the completion retry strategy -/

/-- After three backticks, the first fence regex of the legacy sanitizer
(/(3 backticks)(json)?\n?/gi) optionally consumes "json" case-insensitively
and then at most one newline. -/
def stripFence1Tail (l : List Char) : List Char :=
  let l1 :=
    match l with
    | a :: b :: c :: d :: r =>
      if (a == 'j' || a == 'J') && (b == 's' || b == 'S') &&
         (c == 'o' || c == 'O') && (d == 'n' || d == 'N') then r else l
    | _ => l
  match l1 with
  | '\n' :: r => r
  | _ => l1

/-- The scan of the legacy fence regex (fuelled; the fuel is at least the
length of the list, which every step shortens). -/
def stripGo : Nat → List Char → List Char
  | 0, l => l
  | _ + 1, [] => []
  | f + 1, c0 :: c1 :: c2 :: r =>
    if c0 == tick && c1 == tick && c2 == tick then stripGo f (stripFence1Tail r)
    else c0 :: stripGo f (c1 :: c2 :: r)
  | f + 1, c :: r => c :: stripGo f r

/-- `stripJsonFences` from the legacy variant of prompt.ts. -/
def stripJsonFences (s : String) : String :=
  String.mk (stripGo (s.data.length + 1) s.data)

/-- `sanitizeCompletionJson` from the legacy variant:
`escapeControlCharactersInJsonStrings(stripJsonFences(raw).trim())`.  The
escaping loop is character-for-character the same algorithm as
`escapeControlCharacters` (the legacy copy iterates by UTF-16 index instead of
code point, which coincides on the scalar values concerned). -/
def sanitizeCompletionJson (s : String) : String :=
  escapeControlCharacters (jsTrim (stripJsonFences s))

/-- The `{ raw, cleaned }` payload of the legacy extractor. -/
structure CompletionPayload where
  raw : String
  cleaned : String

/-- `extractCompletionPayload` from the legacy variant of prompt.ts. -/
def extractCompletionPayload (choice : Option Choice) (stage : String) :
    Except Err CompletionPayload :=
  match choice with
  | none => .error (.missingMessage stage)
  | some ch =>
    match ch.message with
    | none => .error (.missingMessage stage)
    | some m =>
      let raw := flattenMessageContent m.content
      if raw ≠ "" && jsTrim raw ≠ "" then
        .ok { raw := raw, cleaned := sanitizeCompletionJson raw }
      else
        match m.tool_calls.findSome? toolCallArgs with
        | some args => .ok { raw := args, cleaned := sanitizeCompletionJson args }
        | none =>
          let refusal := match m.refusal with
            | some rS => jsTrim rS
            | none => ""
          if refusal ≠ "" then .error (.refused stage)
          else .error (.emptyResponse stage)

/-- The title test of `isValidJiraTask`: /^\[[A-Z0-9+-]+\]:/ . -/
def titleRegexTest (s : String) : Bool :=
  match s.data with
  | '[' :: rest =>
    match rest.span (fun c =>
      ('A' ≤ c && c ≤ 'Z') || ('0' ≤ c && c ≤ '9') || c == '+' || c == '-') with
    | (tag, rest2) =>
      if tag = [] then false
      else
        match rest2 with
        | ']' :: ':' :: _ => true
        | _ => false
  | _ => false

/-- `isValidJiraTask` from the legacy variant: a truthy parsed value whose
title is a string matching the bracketed-scope regex and whose description is
a string of length at least 40.  (String length is counted in code points;
the source counts UTF-16 units, which agree on the data involved.) -/
def isValidJiraTask (j : Json) : Bool :=
  jsTruthy j &&
  (match jsGet j "title" with
   | some (.str t) => titleRegexTest t
   | _ => false) &&
  (match jsGet j "description" with
   | some (.str d) => decide (d.length ≥ 40)
   | _ => false)

/-- `buildRetryMessages` from the legacy variant. -/
def buildRetryMessages (base : List ChatMessage) (assistantRaw : String) : List ChatMessage :=
  base ++ [⟨"assistant", assistantRaw⟩,
    ⟨"user", "Your previous output was invalid JSON. Return only a JSON object with both \"title\" and \"description\" fields."⟩]

/-- `generateJiraTask` from the legacy variant, with the upstream completion
service abstracted as an oracle from the sent message list to the first
returned choice.  The second component is the transcript of upstream
completion requests issued, in order.  `parseJiraTask` is JSON.parse of the
cleaned payload, throwing on failure; `ensureValidJiraTask` throws when the
retry result still fails validation. -/
def generateJiraTask (oracle : List ChatMessage → Option Choice)
    (baseMessages : List ChatMessage) : Except Err Json × List (List ChatMessage) :=
  match extractCompletionPayload (oracle baseMessages) "initial" with
  | .error e => (.error e, [baseMessages])
  | .ok payload =>
    match jsonParse payload.cleaned with
    | none => (.error (.invalidJson "initial"), [baseMessages])
    | some jiraTask =>
      if isValidJiraTask jiraTask then (.ok jiraTask, [baseMessages])
      else
        let retryMessages := buildRetryMessages baseMessages payload.raw
        match extractCompletionPayload (oracle retryMessages) "retry" with
        | .error e => (.error e, [baseMessages, retryMessages])
        | .ok p2 =>
          match jsonParse p2.cleaned with
          | none => (.error (.invalidJson "retry"), [baseMessages, retryMessages])
          | some t2 =>
            if isValidJiraTask t2 then (.ok t2, [baseMessages, retryMessages])
            else (.error (.missingFields "retry"), [baseMessages, retryMessages])

/-- An upstream behaviour returning the same plain-content choice on every
call. -/
def constOracle (s : String) : List ChatMessage → Option Choice :=
  fun _ => some ⟨some ⟨.cstr s, [], none⟩⟩

/-- A concrete base message list. -/
def c1Base : List ChatMessage :=
  [⟨"system", "You are a Jira expert."⟩, ⟨"user", "app crashes on save"⟩]

set_option maxRecDepth 16384 in
/-- C1.  Contrary to the claim, an upstream behaviour whose output is
unparseable JSON on every call terminates the pipeline after exactly ONE
upstream call (parseJiraTask throws before the retry is reached); only a
payload that parses but fails field validation consumes the corrective second
call, and a valid initial response returns after exactly one call.  No
behaviour issues a third call. -/
theorem c1_invalid_json_fails_after_one_call :
    (generateJiraTask (constOracle "not json") c1Base).2.length = 1 ∧
    (generateJiraTask (constOracle "not json") c1Base).1 =
      .error (.invalidJson "initial") ∧
    (generateJiraTask (constOracle "\x7b\"title\":\"x\",\"description\":\"y\"\x7d")
      c1Base).2.length = 2 ∧
    (generateJiraTask (constOracle "\x7b\"title\":\"x\",\"description\":\"y\"\x7d")
      c1Base).1 = .error (.missingFields "retry") ∧
    (generateJiraTask (constOracle
      "\x7b\"title\":\"[UI]: Save crash\",\"description\":\"The app crashes every time the user saves a draft issue.\"\x7d")
      c1Base).2.length = 1 ∧
    (generateJiraTask (constOracle
      "\x7b\"title\":\"[UI]: Save crash\",\"description\":\"The app crashes every time the user saves a draft issue.\"\x7d")
      c1Base).1 = .ok (.obj [("title", .str "[UI]: Save crash"),
        ("description", .str "The app crashes every time the user saves a draft issue.")]) := by
  refine ⟨rfl, rfl, rfl, rfl, rfl, rfl⟩

/-! ## server/api/prompt.ts (clarification-loop variant): the handler

The system prompt is the render of server/prompts/system.md (under src) with
the issue-type guide and the allowed keys, via renderTemplate from
server/prompts/index.ts; both are embedded below.  The remaining markdown
templates (issue.md, clarification-system.md, clarification-user.md) are not
under src; those three prompt builders are modelled from the spec.  No claim
inspects the prompt text, only which requests are issued and what the
handler returns. -/

/-- SCOPE_DESCRIPTIONS from shared/constants/scopes.ts. -/
def SCOPE_DESCRIPTIONS : List (String × String) := [
  ("ui", "User interface components, styling, and visual presentation."),
  ("api", "Backend endpoints, server logic, and data processing."),
  ("ux", "User experience, workflows, and overall product usability."),
  ("infra", "Infrastructure, deployment, monitoring, and DevOps tooling."),
  ("proactive-frame", "Legacy iframe collaborating with the modern app; only mention when it materially affects the issue.")]

/-- ISSUE_TYPE_PROMPT_VALUES from issue-types.ts: the keys joined by ", ". -/
def ISSUE_TYPE_PROMPT_VALUES : String := String.intercalate ", " ISSUE_TYPE_KEYS

/-- The lines one section contributes to the guide: its heading, then a
bullet line per bullet and a checkbox line per checklist item. -/
def guideSectionLines (s : IssueTypeSection) : List String :=
  ("  ### " ++ s.title) ::
    (s.bullets.map (fun b => "  - " ++ b) ++
     s.checklist.map (fun i => "  - [ ] " ++ i))

/-- `buildIssueTypeGuide` from issue-types.ts: the header line, then for each
issue type its "- label (key)" line, its section lines and a blank line, then
the closing checkbox note; joined by newlines and trimmed. -/
def buildIssueTypeGuide : String :=
  jsTrim (String.intercalate "\n"
    ("Issue types (set \"issueType\" to the lowercase key in parentheses and follow the exact section template):" ::
     (ISSUE_TYPE_LIST.map (fun m =>
        ("- " ++ m.label ++ " (" ++ m.key ++ ")") ::
          ((m.sections.map guideSectionLines).flatten ++ [""]))).flatten ++
     ["For sections that include checklists, render list items as Markdown checkboxes in the description (e.g., - [ ] ...)."]))

/-- ISSUE_TYPE_GUIDE from issue-types.ts. -/
def ISSUE_TYPE_GUIDE : String := buildIssueTypeGuide

/-- One key's replacement value in renderTemplate: the entry of the values
object, an absent key rendering as '' (`value ?? ''`; every value the call
sites pass is a string, so the number branch is dead). -/
def rtLookup (values : List (String × String)) (k : String) : String :=
  match values.find? (fun (p : String × String) => p.1 == k) with
  | some p => p.2
  | none => ""

/-- The global replace of the placeholder pattern (two opening braces, at
least one word character, two closing braces) in `renderTemplate`, as a
left-to-right scan; fuel is structural and exceeds the input length. -/
def rtGo (values : List (String × String)) : Nat → List Char → List Char
  | 0, l => l
  | _ + 1, [] => []
  | f + 1, c :: r =>
    if c == '\x7b' then
      match r with
      | c2 :: r2 =>
        if c2 == '\x7b' then
          match r2.dropWhile isWordChar with
          | d1 :: d2 :: r3 =>
            if (r2.takeWhile isWordChar) ≠ [] && d1 == '\x7d' && d2 == '\x7d' then
              (rtLookup values (String.mk (r2.takeWhile isWordChar))).data ++
                rtGo values f r3
            else c :: rtGo values f r
          | _ => c :: rtGo values f r
        else c :: rtGo values f r
      | [] => [c]
    else c :: rtGo values f r

/-- `renderTemplate` from server/prompts/index.ts: substitute every
placeholder, then trim (every call site uses the default trim). -/
def renderTemplate (template : String) (values : List (String × String)) : String :=
  jsTrim (String.mk (rtGo values (template.data.length + 1) template.data))

/-- The contents of server/prompts/system.md (the file's mojibake em-dash on
the 'Keep language' line is reproduced byte for byte). -/
def systemTemplate : String :=
  "You are a Jira co-pilot AI assistant that transforms unstructured input (e.g., Slack messages, notes, ideas) into concise, developer-actionable Jira issues.\n" ++
  "\n" ++
  "\x7b\x7bISSUE_TYPE_GUIDE\x7d\x7d\n" ++
  "\n" ++
  "OUTPUT RULES:\n" ++
  "\n" ++
  "1. Always respond with a single valid JSON object (no commentary outside the JSON).\n" ++
  "2. If the input provides enough context to create a Jira issue:\n" ++
  "   ```json\n" ++
  "   \x7b\n" ++
  "     \"status\": \"enough\",\n" ++
  "     \"title\": \"[SCOPE]: short summary (under 100 chars)\",\n" ++
  "     \"issueType\": \"<one of: \x7b\x7bISSUE_TYPE_PROMPT_VALUES\x7d\x7d>\",\n" ++
  "     \"description\": \"Fill each required section for the selected issueType, using the exact headings and checklist style defined above, remaining factual and concise.\"\n" ++
  "   \x7d\n" ++
  "   ```\n" ++
  "3. If the input is unclear or lacks critical details:\n" ++
  "   ```json\n" ++
  "   \x7b\n" ++
  "     \"status\": \"not_enough\",\n" ++
  "     \"reason\": \"Explain briefly what is missing or ambiguous.\",\n" ++
  "     \"missing_info_prompt\": \"Ask ONE concrete, specific question that would clarify the missing part.\"\n" ++
  "   \x7d\n" ++
  "   ```\n" ++
  "\n" ++
  "NOTES:\n" ++
  "\n" ++
  "- \"[SCOPE]\" should reflect the relevant feature, module, or context, inferred from input.\n" ++
  "- Keep language concise, factual, and neutral â€” no speculation.\n" ++
  "- Avoid generic titles like \"Fix bug\" or \"Improve UX\".\n" ++
  "- Provide Markdown structure only inside the description field.\n"

/-- `buildSystemPrompt` from server/prompts/index.ts. -/
def buildSystemPrompt (issueGuide issueTypeValues : String) : String :=
  renderTemplate systemTemplate
    [("ISSUE_TYPE_GUIDE", issueGuide), ("ISSUE_TYPE_PROMPT_VALUES", issueTypeValues)]

/-- The handler's SYSTEM_PROMPT const from prompt.ts: the system template
rendered with the guide and the allowed issue-type keys. -/
def SYSTEM_PROMPT : String :=
  buildSystemPrompt ISSUE_TYPE_GUIDE ISSUE_TYPE_PROMPT_VALUES

/-- Modelled from the spec: server/prompts/issue.md rendered with the working
context, the scope details and the bracketed title tag. -/
def buildIssuePrompt (context scopeDetails tag : String) : String :=
  "Input:\n" ++ context ++ "\n\nRelevant scope(s):\n" ++ scopeDetails ++
  "\n\nWrite a Jira issue describing the problem and expected outcome.\nPrefix the title with [" ++
  tag ++ "]."

/-- Modelled from the spec: server/prompts/clarification-system.md (the
minimal clarification-only system prompt). -/
def buildClarificationSystemPrompt : String :=
  "Ask one concise clarifying question that would unblock drafting the Jira issue. Return plain text."

/-- Modelled from the spec: server/prompts/clarification-user.md rendered with
the user text and the clarifications collected so far. -/
def buildClarificationUserPrompt (text clarifications : String) : String :=
  "Original text:\n" ++ text ++ "\n\nClarifications so far: " ++ clarifications

/-- `MAX_CLARIFICATIONS` from prompt.ts. -/
def MAX_CLARIFICATIONS : Nat := 3

/-- The terminal clarification-exhaustion reason string of handleNeedsInfo. -/
def MAX_ROUNDS_MSG : String :=
  "Reached the maximum number of clarification rounds (" ++ toString MAX_CLARIFICATIONS ++ ")."

/-- `normalize.scope`: a non-empty array passes through, anything else becomes
['ui']. -/
def normalizeScope (s : Json) : List Json :=
  match s with
  | .arr (x :: xs) => x :: xs
  | _ => [.str "ui"]

/-- `normalize.clarifications`: coerce each entry to a string, trim it, and
drop the falsy (empty) results; a non-array becomes []. -/
def normalizeClarifications (c : Json) : List String :=
  match c with
  | .arr l => (l.map (fun i => jsTrim (jsString i))).filter (fun s => s != "")
  | _ => []

/-- `appendClarifications` from prompt.ts. -/
def appendClarifications (text : String) (clarifications : List String) : String :=
  if clarifications = [] then text
  else
    text ++ "\n\nClarifications so far:\n" ++
      String.intercalate "\n"
        (clarifications.enum.map (fun p => toString (p.1 + 1) ++ ". " ++ p.2))

/-- `buildIssueContext` from prompt.ts: the +-joined uppercase tag and the
per-scope description lines (Map.get misses fall back to 'General scope.'). -/
def buildIssueContext (context : String) (scope : List Json) : String :=
  let tag := String.intercalate "+" (scope.map (fun s => (jsString s).toUpper))
  let details := String.intercalate "\n" (scope.map (fun s =>
    "- " ++ (jsString s).toUpper ++ ": " ++
    ((match s with
      | .str k => (SCOPE_DESCRIPTIONS.find? (fun (p : String × String) => p.1 == k)).map
          (fun (p : String × String) => p.2)
      | _ => none).getD "General scope.")))
  buildIssuePrompt context details tag

/-- `parseJson` from prompt.ts: JSON.parse, and on failure one repair attempt
that removes commas directly preceding a closing brace or bracket
(/,(\s*[}\x5d])/g) and trims; null when that also fails or changes nothing. -/
def commaFixGo : Nat → List Char → List Char
  | 0, l => l
  | _ + 1, [] => []
  | f + 1, c :: r =>
    if c == ',' then
      match r.dropWhile isJsWs with
      | b :: r2 =>
        if b == '}' || b == ']' then (r.takeWhile isJsWs) ++ b :: commaFixGo f r2
        else c :: commaFixGo f r
      | [] => c :: commaFixGo f r
    else c :: commaFixGo f r

def parseJsonFixed (input : String) : Option Json :=
  match jsonParse input with
  | some v => some v
  | none =>
    let fixed := jsTrim (String.mk (commaFixGo (input.data.length + 1) input.data))
    if fixed ≠ input then jsonParse fixed else none

/-- The response record of the prompt endpoint (fields absent from a given
response are none). -/
structure PromptResponse where
  status : String
  title : Option Json := none
  description : Option Json := none
  issueType : Option String := none
  scope : Option String := none
  reason : Option Json := none
  missingInfoPrompt : Option String := none
  priority : Option Json := none
  severity : Option Json := none
  labels : Option (List String) := none
  components : Option (List String) := none
  epicLink : Option Json := none
  parent : Option Json := none
  dependencies : Option (List String) := none
  estimate : Option Json := none
  riskAreas : Option (List String) := none
  dataSensitivity : Option Json := none
  acceptanceCriteria : Option (List String) := none
  multiItem : Option Bool := none

/-- `parsed.clarificationRequest?.trim()` truthiness: the trimmed string when
the property is a non-blank string.  (A non-string, non-nullish property would
throw in JS; no claim exercises that.) -/
def optTrimNonBlank : Option Json → Option String
  | some (.str s) => if jsTrim s ≠ "" then some (jsTrim s) else none
  | _ => none

/-- The needs_info response: `parsed.reason || 'More detail is needed.'` and
the chosen prompt. -/
def needsInfoResp (reasonF : Option Json) (p : String) : PromptResponse :=
  { status := "needs_info",
    reason := some
      (match reasonF with
       | some j => if jsTruthy j then j else .str "More detail is needed."
       | none => .str "More detail is needed."),
    missingInfoPrompt := some p }

/-- `handleNeedsInfo` from prompt.ts, with `buildFallbackClarification`
inlined (its completion call goes through the oracle; the second component is
the transcript of the completion requests it issues). -/
def handleNeedsInfo (reasonF crF mipF : Option Json) (prev : List String)
    (oracle : List ChatMessage → Option Choice) (text : String) :
    Except Err PromptResponse × List (List ChatMessage) :=
  if prev.length ≥ MAX_CLARIFICATIONS then
    (.ok { status := "error", reason := some (.str MAX_ROUNDS_MSG) }, [])
  else
    match optTrimNonBlank crF with
    | some p => (.ok (needsInfoResp reasonF p), [])
    | none =>
      match optTrimNonBlank mipF with
      | some p => (.ok (needsInfoResp reasonF p), [])
      | none =>
        let msgs : List ChatMessage := [⟨"system", buildClarificationSystemPrompt⟩,
          ⟨"user", buildClarificationUserPrompt text
            (if prev ≠ [] then String.intercalate " | " prev else "none")⟩]
        match extractPayload (oracle msgs) "primary" with
        | .error e => (.error e, [msgs])
        | .ok s =>
          let p := if s ≠ "" then s else "Could you provide more detail about what is missing?"
          (.ok (needsInfoResp reasonF p), [msgs])

/-- `rawObj.issueType ?? rawObj.type` (nullish coalescing). -/
def jsCoalesce (a b : Option Json) : Option Json :=
  match a with
  | some .null => b
  | some j => some j
  | none => b

/-- `handleJiraEnhanced` from prompt.ts: the enhanced schema first, then the
legacy title/description fallback. -/
def handleJiraEnhanced (p : Json) : Except Err PromptResponse :=
  let legacy : Except Err PromptResponse :=
    match normalizeIssueType ((jsCoalesce (jsGet p "issueType") (jsGet p "type")).getD .null) with
    | none => .error .unexpectedResponse
    | some key =>
      if jsTruthy ((jsGet p "title").getD .null) = false ∨
         jsTruthy ((jsGet p "description").getD .null) = false then
        .error .unexpectedResponse
      else
        .ok { status := "done", title := jsGet p "title",
              description := jsGet p "description", issueType := some key }
  match parseIssueGenerationResult p with
  | .ok v =>
    if v.status = .enough then
      .ok { status := "done", title := v.title.map .str,
            description := v.description.map .str, issueType := v.issueType,
            scope := v.scope, priority := v.priority, severity := v.severity,
            labels := v.labels, components := v.components, epicLink := v.epicLink,
            parent := v.parent, dependencies := v.dependencies, estimate := v.estimate,
            riskAreas := v.riskAreas, dataSensitivity := v.dataSensitivity,
            acceptanceCriteria := v.acceptanceCriteria, multiItem := v.multiItem }
    else legacy
  | .err _ => legacy

/-- `parsed.status === 'not_enough'` on a parsed JSON value. -/
def jsEqStrB (o : Option Json) (s : String) : Bool :=
  match o with
  | some (.str t) => t == s
  | _ => false

/-- The request body of the clarification-loop handler (absent fields are
none / null). -/
structure PromptBody where
  text : Option String := none
  agent : Option String := none
  scope : Json := .null
  previousClarifications : Json := .null

/-- The trimmed request text (`ensureText`). -/
def handlerText (body : PromptBody) : String := jsTrim (body.text.getD "")

/-- The messages of the primary completion call: the system prompt and the
user message built from the working context and the scope details. -/
def handlerMessages (body : PromptBody) : List ChatMessage :=
  [⟨"system", SYSTEM_PROMPT⟩,
   ⟨"user", buildIssueContext
      (appendClarifications (handlerText body)
        (normalizeClarifications body.previousClarifications))
      (normalizeScope body.scope)⟩]

/-- The clarification-loop event handler of prompt.ts, with the completion
service abstracted as an oracle and the second component the transcript of
completion requests issued (the model identifier and token limits do not
affect any claimed property and are omitted from the request records; the
handler's local consts are factored out as the definitions above). -/
def clarificationHandler (oracle : List ChatMessage → Option Choice)
    (cfgKey : String) (body : PromptBody) :
    Except Err PromptResponse × List (List ChatMessage) :=
  if jsTrim cfgKey = "" then (.error .noApiKey, [])
  else if handlerText body = "" then (.error .noText, [])
  else
    match extractPayload (oracle (handlerMessages body)) "primary" with
    | .error e => (.error e, [handlerMessages body])
    | .ok raw =>
      match parseJsonFixed raw with
      | none => (.error .invalidJsonFromModel, [handlerMessages body])
      | some parsed =>
        if jsTruthy parsed = false then (.error .invalidJsonFromModel, [handlerMessages body])
        else if jsEqStrB (jsGet parsed "status") "not_enough" then
          match parseIssueGenerationResult parsed with
          | .ok v =>
            if v.status = .notEnough then
              ((handleNeedsInfo (v.reason.map .str) (v.clarificationRequest.map .str)
                  (jsGet parsed "missing_info_prompt")
                  (normalizeClarifications body.previousClarifications) oracle
                  (handlerText body)).1,
               [handlerMessages body] ++
                 (handleNeedsInfo (v.reason.map .str) (v.clarificationRequest.map .str)
                   (jsGet parsed "missing_info_prompt")
                   (normalizeClarifications body.previousClarifications) oracle
                   (handlerText body)).2)
            else
              ((handleNeedsInfo (jsGet parsed "reason") (jsGet parsed "clarificationRequest")
                  (jsGet parsed "missing_info_prompt")
                  (normalizeClarifications body.previousClarifications) oracle
                  (handlerText body)).1,
               [handlerMessages body] ++
                 (handleNeedsInfo (jsGet parsed "reason") (jsGet parsed "clarificationRequest")
                   (jsGet parsed "missing_info_prompt")
                   (normalizeClarifications body.previousClarifications) oracle
                   (handlerText body)).2)
          | .err _ =>
            ((handleNeedsInfo (jsGet parsed "reason") (jsGet parsed "clarificationRequest")
                (jsGet parsed "missing_info_prompt")
                (normalizeClarifications body.previousClarifications) oracle
                (handlerText body)).1,
             [handlerMessages body] ++
               (handleNeedsInfo (jsGet parsed "reason") (jsGet parsed "clarificationRequest")
                 (jsGet parsed "missing_info_prompt")
                 (normalizeClarifications body.previousClarifications) oracle
                 (handlerText body)).2)
        else
          match handleJiraEnhanced parsed with
          | .ok r => (.ok r, [handlerMessages body])
          | .error e => (.error e, [handlerMessages body])

/-! ## Claims C2, C8, C10: the clarification loop -/

lemma jsTrim_idem (s : String) : jsTrim (jsTrim s) = jsTrim s := by
  have h1 : headWs (jsTrimList s.data) = false := by
    rw [jsTrimList]
    exact headWs_dropTrail (headWs_dropWhile _)
  have h2 : lastWs (jsTrimList s.data) = false := by
    rw [jsTrimList]
    exact lastWs_dropTrail _
  show String.mk (jsTrimList (jsTrimList s.data)) = _
  rw [jsTrimList_eq_self h1 h2]
  rfl

/-- The round cap is the first check of handleNeedsInfo: at or above it the
handler returns the terminal error response and issues no completion call. -/
lemma handleNeedsInfo_cap (rF cF mF : Option Json) (prev : List String)
    (oracle : List ChatMessage → Option Choice) (text : String)
    (h3 : prev.length ≥ MAX_CLARIFICATIONS) :
    handleNeedsInfo rF cF mF prev oracle text =
      (.ok { status := "error", reason := some (.str MAX_ROUNDS_MSG) }, []) := by
  rw [handleNeedsInfo, if_pos h3]

/-- An upstream behaviour answering every request with a fixed not_enough
verdict that carries a clarification question. -/
def notEnoughOracle : List ChatMessage → Option Choice :=
  constOracle "\x7b\"status\":\"not_enough\",\"reason\":\"no repro steps\",\"clarificationRequest\":\"What steps trigger the crash?\"\x7d"

/-- A request whose previousClarifications has three entries, one blank. -/
def c2Body : PromptBody :=
  { text := some "app crashes on save"
    scope := .arr [.str "ui"]
    previousClarifications := .arr [.str "a", .str " ", .str "b"] }

set_option maxRecDepth 32768 in
/-- C2 (counterexample).  A request whose previousClarifications list has
three entries, one of them blank, together with a not_enough verdict, yields a
needs_info response carrying the model question — not the max-rounds error the
claim requires for every request with at least 3 entries. -/
theorem c2_three_raw_entries_not_exhausted :
    (match c2Body.previousClarifications with | .arr l => l.length | _ => 0) = 3 ∧
    (match (clarificationHandler notEnoughOracle "key" c2Body).1 with
      | .ok r => r.status
      | .error _ => "") = "needs_info" ∧
    (match (clarificationHandler notEnoughOracle "key" c2Body).1 with
      | .ok r => r.missingInfoPrompt
      | .error _ => none) = some "What steps trigger the crash?" :=
  ⟨rfl, rfl, rfl⟩

/-- C2 (amended).  The round cap counts the normalized clarifications (blank
entries dropped): for every request whose previousClarifications contain at
least 3 entries that are non-blank after trimming, a not_enough verdict makes
the handler return the terminal 'error' response naming the maximum number of
clarification rounds (3), and no completion call beyond the single primary
call is issued. -/
theorem c2_cap_counts_normalized_clarifications
    (ch : Choice) (rawStr : String) (pj : Json) (key : String) (body : PromptBody)
    (oracle : List ChatMessage → Option Choice)
    (hor : ∀ ms, oracle ms = some ch)
    (hkey : jsTrim key ≠ "") (htext : handlerText body ≠ "")
    (hex : extractPayload (some ch) "primary" = .ok rawStr)
    (hparse : parseJsonFixed rawStr = some pj)
    (htruthy : jsTruthy pj = true)
    (hstatus : jsEqStrB (jsGet pj "status") "not_enough" = true)
    (h3 : (normalizeClarifications body.previousClarifications).length ≥ MAX_CLARIFICATIONS) :
    clarificationHandler oracle key body =
      (.ok { status := "error", reason := some (.str MAX_ROUNDS_MSG) },
       [handlerMessages body]) := by
  unfold clarificationHandler
  rw [if_neg hkey, if_neg htext]
  simp only [hor, hex, hparse]
  rw [if_neg (by simp [htruthy]), if_pos hstatus]
  split
  · rename_i v hE
    by_cases hv : v.status = GenStatus.notEnough
    · rw [if_pos hv, handleNeedsInfo_cap _ _ _ _ _ _ h3]
      simp
    · rw [if_neg hv, handleNeedsInfo_cap _ _ _ _ _ _ h3]
      simp
  · rw [handleNeedsInfo_cap _ _ _ _ _ _ h3]
    simp

/-- A request carrying three non-blank clarifications. -/
def c2CapBody : PromptBody :=
  { text := some "app crashes on save"
    scope := .arr [.str "ui"]
    previousClarifications := .arr [.str "a", .str "b", .str "c"] }

set_option maxRecDepth 32768 in
/-- Witness for C2 at a concrete request with three non-blank clarifications:
the handler returns the terminal error after the single primary call. -/
theorem c2_cap_counts_normalized_clarifications_witness :
    clarificationHandler notEnoughOracle "key" c2CapBody =
      (.ok { status := "error", reason := some (.str MAX_ROUNDS_MSG) },
       [handlerMessages c2CapBody]) := by
  exact c2_cap_counts_normalized_clarifications
    ⟨some ⟨.cstr "\x7b\"status\":\"not_enough\",\"reason\":\"no repro steps\",\"clarificationRequest\":\"What steps trigger the crash?\"\x7d", [], none⟩⟩
    (sanitizeJsonResponse "\x7b\"status\":\"not_enough\",\"reason\":\"no repro steps\",\"clarificationRequest\":\"What steps trigger the crash?\"\x7d")
    (.obj [("status", .str "not_enough"), ("reason", .str "no repro steps"),
      ("clarificationRequest", .str "What steps trigger the crash?")])
    "key" c2CapBody notEnoughOracle (fun _ => rfl) (by decide) (by decide)
    rfl rfl rfl rfl (by decide)

/-- A request whose scope field is present but an empty array. -/
def c8Body : PromptBody :=
  { text := some "app crashes on save"
    scope := .arr [] }

set_option maxRecDepth 32768 in
/-- C8 (counterexample).  A request with an empty scope array is not rejected:
the handler proceeds, issues the upstream completion call, and returns the
verdict-driven response (here needs_info). -/
theorem c8_empty_scope_proceeds :
    (match (clarificationHandler notEnoughOracle "key" c8Body).1 with
      | .ok r => r.status
      | .error _ => "") = "needs_info" ∧
    (clarificationHandler notEnoughOracle "key" c8Body).2.length = 1 :=
  ⟨rfl, rfl⟩

/-- C8 (amended).  A missing, non-array or empty-array scope is replaced by
the default ['ui'] and the request proceeds: whenever the credential and the
text are non-blank, the handler issues at least the primary upstream call —
scope is never a ground for input-validation rejection. -/
theorem c8_scope_defaults_to_ui :
    (∀ s : Json, (∀ l, s = .arr l → l = []) → normalizeScope s = [.str "ui"]) ∧
    (∀ (oracle : List ChatMessage → Option Choice) (key : String) (body : PromptBody),
      jsTrim key ≠ "" → handlerText body ≠ "" →
      (clarificationHandler oracle key body).2.length ≥ 1) := by
  constructor
  · intro s hs
    match s with
    | .null => rfl
    | .bool _ => rfl
    | .num _ => rfl
    | .str _ => rfl
    | .obj _ => rfl
    | .arr [] => rfl
    | .arr (x :: xs) =>
      have := hs (x :: xs) rfl
      simp at this
  · intro oracle key body hkey htext
    unfold clarificationHandler
    rw [if_neg hkey, if_neg htext]
    split
    · simp
    · split
      · simp
      · split
        · simp
        · split
          · split
            · split
              · simp
              · simp
            · simp
          · split
            · simp
            · simp

set_option maxRecDepth 32768 in
/-- Witness for C8: a null scope normalizes to ['ui'], and the concrete
empty-scope request issues an upstream call. -/
theorem c8_scope_defaults_to_ui_witness :
    normalizeScope .null = [.str "ui"] ∧
    (clarificationHandler notEnoughOracle "key" c8Body).2.length ≥ 1 := by
  constructor
  · exact c8_scope_defaults_to_ui.1 .null (fun l h => by cases h)
  · exact c8_scope_defaults_to_ui.2 notEnoughOracle "key" c8Body (by decide) (by decide)

/-- C10.  previousClarifications entries are coerced to strings, trimmed, and
blank entries dropped before any use: every normalized entry is a non-blank
trimmed string, four whitespace-only entries normalize to zero rounds, zero
rounds is below the cap, and with those entries a not_enough verdict still
returns needs_info rather than the exhaustion error. -/
theorem c10_blank_clarifications_dropped :
    (∀ (l : List Json) (s : String), s ∈ normalizeClarifications (.arr l) →
       s ≠ "" ∧ jsTrim s = s) ∧
    normalizeClarifications (.arr [.str " ", .str "  ", .str "\t", .str " "]) = [] ∧
    ¬(normalizeClarifications (.arr [.str " ", .str "  ", .str "\t", .str " "])).length ≥
      MAX_CLARIFICATIONS ∧
    (handleNeedsInfo (some (.str "r")) (some (.str "Q")) none
      (normalizeClarifications (.arr [.str " ", .str "  ", .str "\t", .str " "]))
      (fun _ => none) "t").1 =
      .ok { status := "needs_info", reason := some (.str "r"),
            missingInfoPrompt := some "Q" } := by
  refine ⟨?_, rfl, by decide, rfl⟩
  intro l s hmem
  rw [normalizeClarifications] at hmem
  rw [List.mem_filter] at hmem
  obtain ⟨hmap, hne⟩ := hmem
  rw [List.mem_map] at hmap
  obtain ⟨i, _, hi⟩ := hmap
  refine ⟨by simpa using hne, ?_⟩
  rw [← hi, jsTrim_idem]

/-- Witness for C10 at a concrete entry: " a " normalizes to the non-blank
trimmed "a". -/
theorem c10_blank_clarifications_dropped_witness :
    ("a" : String) ≠ "" ∧ jsTrim "a" = "a" := by
  exact c10_blank_clarifications_dropped.1 [.str " a "] "a" (by decide)

end JIW

